import Mathlib

/-!
Verification development for the spherical-quadtree LOD / procedural-terrain
engine of the `archughes/quadtree` repository.

The JavaScript sources are shallowly embedded over `ℚ`:

* JS `number` arithmetic (`+`, `-`, `*`, `/`, comparisons, `Math.abs`,
  `Math.round`, `Math.max`, `Math.floor`) is modelled by exact rational
  arithmetic.  The float constant `Math.PI` is embedded by its exact IEEE-754
  double value `884279719003555 / 2^48` (`jsPi` below), so that comparisons
  such as `Math.abs(theta - Math.PI) < 1e-6` are decidable on concrete inputs.
* The external seeded simplex-noise function, the biome manager singleton
  (`BiomeManager.js` has no source in the repository; only its call sites do)
  and the temperature manager are modelled as opaque function parameters
  collected in environment structures.  `createNoise2D` builds its permutation
  table once at construction time, so the noise function is pure afterwards;
  the `rng.seed(...)` call inside `TerrainGenerator.getHeight` therefore has
  no observable effect and is not modelled.
* JS string results (vertex keys, coarse cache keys) are embedded as tuples of
  the numbers that the template literal would print; two keys are equal iff
  the corresponding tuples are.  Feature labels and biome names are embedded
  as enumerations of the finitely many string constants occurring in the
  sources.
* Mutable objects with identity (quadtree nodes) are embedded as an inductive
  tree; a node reference is the access path from the root, which is stable
  because balancing only ever adds children.
-/

/-- The exact value of the IEEE-754 double `Math.PI`. -/
def jsPi : ℚ := 884279719003555 / 281474976710656

/-- JS `Math.round`: round half toward positive infinity. -/
def jsRound (q : ℚ) : ℤ := ⌊q + 1/2⌋

/-- The epsilon used by boundary and pole comparisons in the sources (`1e-6`). -/
def jsEps : ℚ := 1 / 1000000

/-! ### QuadtreeNode (src/terrain/QuadtreeNode.js, identical in src/unnamed/part_003)

A node stores its angular bounds and subdivision level.  `subdivide` splits the
bounds at the midpoints into the four children `nw`, `ne`, `sw`, `se` (in the
insertion order of the JS `Map`), each one level deeper.  The `baseHeight`
record cached on a node is irrelevant to the balancing claims (it only feeds
distance estimation during `buildTree`) and is not part of this embedding.
-/

/-- Angular bounds of a quadtree node: `thetaMin/Max`, `phiMin/Max`. -/
structure Rect where
  tmin : ℚ
  tmax : ℚ
  pmin : ℚ
  pmax : ℚ
deriving DecidableEq

/-- `QuadtreeNode.isAdjacent(other)`: share a theta boundary (within `1e-6`)
with overlapping phi ranges, or a phi boundary with overlapping theta ranges.
The overlap tests are the negations `!(this.phiMax < other.phiMin || this.phiMin > other.phiMax)`
and `!(this.thetaMax < other.thetaMin || this.thetaMin > other.thetaMax)`. -/
def isAdjacent (a b : Rect) : Bool :=
  let shareTheta :=
    (|a.tmin - b.tmax| < jsEps || |a.tmax - b.tmin| < jsEps) &&
    !(a.pmax < b.pmin || a.pmin > b.pmax)
  let sharePhi :=
    (|a.pmin - b.pmax| < jsEps || |a.pmax - b.pmin| < jsEps) &&
    !(a.tmax < b.tmin || a.tmin > b.tmax)
  shareTheta || sharePhi

/-- A quadtree: a leaf, or an internal node with children `nw`, `ne`, `sw`, `se`. -/
inductive QTree where
  | leaf : Rect → ℕ → QTree
  | node : Rect → ℕ → QTree → QTree → QTree → QTree → QTree
deriving DecidableEq

/-- Quadrant keys, in the JS `Map` insertion order `nw`, `ne`, `sw`, `se`. -/
inductive Quadrant where
  | nw | ne | sw | se
deriving DecidableEq

/-- A stable reference to a node: the access path from the root. -/
abbrev NodePath := List Quadrant

/-- The bounds of the four children created by `QuadtreeNode.subdivide`:
the parent bounds split at `thetaMid` and `phiMid`. -/
def childRect (r : Rect) : Quadrant → Rect
  | .nw => ⟨r.tmin, (r.tmin + r.tmax) / 2, r.pmin, (r.pmin + r.pmax) / 2⟩
  | .ne => ⟨r.tmin, (r.tmin + r.tmax) / 2, (r.pmin + r.pmax) / 2, r.pmax⟩
  | .sw => ⟨(r.tmin + r.tmax) / 2, r.tmax, r.pmin, (r.pmin + r.pmax) / 2⟩
  | .se => ⟨(r.tmin + r.tmax) / 2, r.tmax, (r.pmin + r.pmax) / 2, r.pmax⟩

/-- `subdivide` on a leaf: create the four children one level deeper.
On an internal node (`!this.isLeaf()`) it is a no-op, as in the source. -/
def subdivideHere : QTree → QTree
  | .leaf r l =>
      .node r l (.leaf (childRect r .nw) (l + 1)) (.leaf (childRect r .ne) (l + 1))
        (.leaf (childRect r .sw) (l + 1)) (.leaf (childRect r .se) (l + 1))
  | t => t

/-- Apply `subdivide` to the node referenced by the given path. -/
def subdivideAt : QTree → NodePath → QTree
  | t, [] => subdivideHere t
  | .leaf r l, _ :: _ => .leaf r l
  | .node r l cnw cne csw cse, q :: rest =>
      match q with
      | .nw => .node r l (subdivideAt cnw rest) cne csw cse
      | .ne => .node r l cnw (subdivideAt cne rest) csw cse
      | .sw => .node r l cnw cne (subdivideAt csw rest) cse
      | .se => .node r l cnw cne csw (subdivideAt cse rest)

/-- A leaf listing: reference path, bounds and level. -/
structure LeafInfo where
  path : NodePath
  rect : Rect
  level : ℕ
deriving DecidableEq

/-- `QuadtreeNode.findAllLeaves`: depth-first collection of all leaves, children
visited in the insertion order `nw`, `ne`, `sw`, `se`. -/
def findAllLeaves : QTree → NodePath → List LeafInfo
  | .leaf r l, p => [⟨p, r, l⟩]
  | .node _ _ cnw cne csw cse, p =>
      findAllLeaves cnw (p ++ [.nw]) ++ findAllLeaves cne (p ++ [.ne]) ++
      findAllLeaves csw (p ++ [.sw]) ++ findAllLeaves cse (p ++ [.se])

/-- Look up the bounds and level of the node referenced by a path (these fields
of a JS node never change, even when children are added). -/
def rectLevelAt : QTree → NodePath → Option (Rect × ℕ)
  | .leaf r l, [] => some (r, l)
  | .node r l _ _ _ _, [] => some (r, l)
  | .leaf _ _, _ :: _ => none
  | .node _ _ cnw cne csw cse, q :: rest =>
      match q with
      | .nw => rectLevelAt cnw rest
      | .ne => rectLevelAt cne rest
      | .sw => rectLevelAt csw rest
      | .se => rectLevelAt cse rest

/-- `getAdjacentNodes(leaves)` for the node with reference `p` and bounds `r`:
all other current leaves whose bounds are adjacent (`this !== leaf` is the
identity test, i.e. distinct reference paths). -/
def getAdjacentNodes (t : QTree) (p : NodePath) (r : Rect) : List LeafInfo :=
  (findAllLeaves t []).filter (fun l => l.path ≠ p ∧ isAdjacent r l.rect)

/-- The inner `for (const neighbor of neighbors)` loop of the queue-based
`balanceTree`: the neighbor list is the snapshot taken when the node was
popped; each too-coarse neighbor is subdivided in place and the leaves
adjacent to it (in the updated tree) are appended to the work queue. -/
def processNeighbors (nodeLevel : ℕ) :
    List LeafInfo → QTree → List NodePath → QTree × List NodePath
  | [], t, q => (t, q)
  | n :: rest, t, q =>
      if nodeLevel > n.level + 1 then
        let t' := subdivideAt t n.path
        let q' := q ++ (getAdjacentNodes t' n.path n.rect).map LeafInfo.path
        processNeighbors nodeLevel rest t' q'
      else
        processNeighbors nodeLevel rest t q

/-- The `while (queue.length > 0)` loop of `balanceTree`, with explicit fuel
(the JS loop has no iteration cap; the accompanying theorem checks that the
fuel given there is not exhausted, i.e. the returned queue is empty). -/
def balanceLoop : ℕ → QTree → List NodePath → QTree × List NodePath
  | 0, t, q => (t, q)
  | _ + 1, t, [] => (t, [])
  | fuel + 1, t, p :: rest =>
      match rectLevelAt t p with
      | none => balanceLoop fuel t rest
      | some (r, lvl) =>
          let neighbors := getAdjacentNodes t p r
          let (t', q') := processNeighbors lvl neighbors t rest
          balanceLoop fuel t' q'

/-- The initial queue of `balanceTree`: every leaf having some adjacent leaf
more than one level below it. -/
def initialQueue (t : QTree) : List NodePath :=
  ((findAllLeaves t []).filter
    (fun leaf => (getAdjacentNodes t leaf.path leaf.rect).any
      (fun n => leaf.level > n.level + 1))).map LeafInfo.path

/-- `QuadtreeNode.balanceTree(root)` (src/terrain/QuadtreeNode.js lines 82-103,
identical in src/unnamed/part_003): seed the queue, then repeatedly pop a node,
subdivide its too-coarse neighbors and enqueue the leaves adjacent to each
subdivided neighbor. -/
def balanceTree (fuel : ℕ) (t : QTree) : QTree × List NodePath :=
  balanceLoop fuel t (initialQueue t)

/-- Does the tree contain two distinct adjacent leaves whose levels differ by
more than one?  (The balance invariant that `balanceTree` is documented to
establish.) -/
def hasImbalance (t : QTree) : Bool :=
  let leaves := findAllLeaves t []
  leaves.any (fun a => leaves.any (fun b =>
    a.path ≠ b.path ∧ isAdjacent a.rect b.rect ∧ a.level + 2 ≤ b.level))

/-- A concrete input tree for `balanceTree`: starting from a root quadtree node
with bounds `[0,16] × [0,32]` (all midpoints are exact in IEEE doubles, so the
JS run computes bit-for-bit these rational bounds), subdivide the root, then
its `ne` child, then that node's `ne` child, then that node's `nw` child.
All leaf levels equal their depth, exactly as produced by `buildTree`. -/
def exampleTree : QTree :=
  subdivideAt (subdivideAt (subdivideAt (subdivideHere
    (.leaf ⟨0, 16, 0, 32⟩ 0)) [.ne]) [.ne, .ne]) [.ne, .ne, .nw]

/-- The tree returned by `balanceTree` on the example input (fuel 100). -/
def balancedExample : QTree × List NodePath := balanceTree 100 exampleTree


/-! ### Desired subdivision level (src/terrain/QuadTreeManager.js lines 41-48,
src/terrain/EllipsoidMesh.js lines 72-79)

Both variants scan the ascending `lodDistances` list and map the index `i` of
the first threshold exceeding the distance to a level; they differ by one in
that mapping, and in what they return beyond the last threshold. -/

/-- Loop body of `QuadTreeManager.getDesiredLevel`: at index `i`, if
`distance < lodDistances[i]` return `maxLevel - i`; past the end return `0`. -/
def desiredLevelManagerAux (maxLevel : ℤ) (distance : ℚ) : ℤ → List ℚ → ℤ
  | _, [] => 0
  | i, l :: rest =>
      if distance < l then maxLevel - i else desiredLevelManagerAux maxLevel distance (i + 1) rest

/-- `QuadTreeManager.getDesiredLevel(distance)` (also src/unnamed/part_001). -/
def getDesiredLevelManager (lodDistances : List ℚ) (maxLevel : ℤ) (distance : ℚ) : ℤ :=
  desiredLevelManagerAux maxLevel distance 0 lodDistances

/-- Loop body of `EllipsoidMesh.getDesiredLevel`: at index `i`, if
`distance < lodDistances[i]` return `maxLevel - i + 1`; past the end return
`minLevel`. -/
def desiredLevelMeshAux (maxLevel minLevel : ℤ) (distance : ℚ) : ℤ → List ℚ → ℤ
  | _, [] => minLevel
  | i, l :: rest =>
      if distance < l then maxLevel - i + 1
      else desiredLevelMeshAux maxLevel minLevel distance (i + 1) rest

/-- `EllipsoidMesh.getDesiredLevel(distance)` (src/terrain/EllipsoidMesh.js);
the constructor fixes `minLevel = 0` and `maxLevel = lodDistances.length`. -/
def getDesiredLevelMesh (lodDistances : List ℚ) (maxLevel minLevel : ℤ) (distance : ℚ) : ℤ :=
  desiredLevelMeshAux maxLevel minLevel distance 0 lodDistances

/-- The `desiredLevel` contract as worded by the spec: band index `i`
(first threshold greater than the distance) maps to `maxLevel - i`, clamped to
`[minLevel, maxLevel]`; farther than all thresholds gives `minLevel`.  This
definition follows the spec text and is compared against the two source
variants. -/
def specDesiredLevelAux (maxLevel minLevel : ℤ) (distance : ℚ) : ℤ → List ℚ → ℤ
  | _, [] => minLevel
  | i, l :: rest =>
      if distance < l then min (max (maxLevel - i) minLevel) maxLevel
      else specDesiredLevelAux maxLevel minLevel distance (i + 1) rest

/-- The spec's `desiredLevel(distance)`, starting at band index `0`. -/
def specDesiredLevel (lodDistances : List ℚ) (maxLevel minLevel : ℤ) (distance : ℚ) : ℤ :=
  specDesiredLevelAux maxLevel minLevel distance 0 lodDistances

/-! ### Feature labels and biomes

Feature labels are the string constants occurring in the sources, embedded as
an enumeration (`tectonicPlate` stands for `'tectonic_plate'`, and so on).
`BiomeTag.blank` models the initial empty-string biome of a fresh cache entry;
the five named biomes are those listed by the biome classifier.  `rift` occurs
both as a biome and as a label in `TectonicPlateGenerator.canApplyWith`. -/

/-- Feature label strings, as an enumeration. -/
inductive Feature where
  | crater | volcano | tectonicPlate | plain | magneticAnomaly | lavaFlow
  | desertPavement | sandDune | glacial | karst | wetland | permafrost
  | oasis | foothill | valley | river | tributary | mouth | coralReef
  | fumarole | underwater | rift
deriving DecidableEq

/-- Biome label strings, plus `blank` for the initial `''`. -/
inductive BiomeTag where
  | polar | equatorial | temperate | highland | rift | blank
deriving DecidableEq

/-! ### External environment

`BiomeManager.js` is imported by every generator and by the terrain generator
but its source is not in the repository; its `getBiome`, `getBiomeParams` and
`getFeatureModifier` queries are modelled as opaque functions, as are the
seeded noise channel, `Math.sin`, `Math.pow(2, ·)`, the `computeLatitude`
helper (which applies `Math.acos`) and the temperature manager's
`getTemperature`.  The claims under check do not depend on their values. -/

/-- Opaque external functions used by the terrain pipeline. -/
structure TGEnv where
  noise : ℚ → ℚ → ℚ
  featureModifier : BiomeTag → Feature → ℚ
  latitude : ℚ → ℚ → ℚ
  jsSin : ℚ → ℚ
  pow2 : ℚ → ℚ
  getBiome : ℚ → ℚ → ℚ → BiomeTag
  frequencyScale : BiomeTag → ℚ
  amplitudeScale : BiomeTag → ℚ
  biomeOctaves : BiomeTag → ℕ
  getTemperature : ℚ → List Feature → BiomeTag → ℚ → ℚ → ℚ

/-- The terrain configuration fields read by the embedded code
(src/terrain/TerrainGenerator.js constructor).  `featureAges` is the per-label
age table with its `default` entry; the `||` fallback of the JS lookup is kept
(a missing or zero entry falls back to the default). -/
structure TGConfig where
  baseFrequency : ℚ
  baseAmplitude : ℚ
  detailFrequency : ℚ
  detailAmplitude : ℚ
  octaves : ℕ
  waterLevel : ℚ
  waterBlend : ℚ
  erosionFactor : ℚ
  oceanFrequency : ℚ
  oceanAmplitude : ℚ
  oceanOctaves : ℕ
  featureAges : Feature → ℚ
  ageDefault : ℚ

/-- Result of one `applyFeature` call: the height delta, the optional label,
and the (possibly mutated) `existingFeatures` array. -/
structure ApplyResult where
  heightAdjustment : ℚ
  featureLabel : Option Feature
  existing : List Feature
deriving DecidableEq

/-- `canApplyWith`: `existingFeatures.every(f => compatibleFeatures.includes(f))`. -/
def canApplyWith (compatible existing : List Feature) : Bool :=
  existing.all (fun f => decide (f ∈ compatible))

/-- `canApplyWithout`: `!existingFeatures.some(f => prohibitedFeatures.includes(f))`. -/
def canApplyWithout (prohibited existing : List Feature) : Bool :=
  !(existing.any (fun f => decide (f ∈ prohibited)))

/-- The shared guard of every generator's `applyFeature`:
`!this.canApplyWith(existingFeatures) || !this.canApplyWithout(existingFeatures)`. -/
def guardRefuses (compatible prohibited existing : List Feature) : Bool :=
  !(canApplyWith compatible existing) || !(canApplyWithout prohibited existing)

/-! ### The seventeen feature generators

Each `<name>Apply` mirrors `<Name>Generator.applyFeature`; decimal literals of
the sources are written as explicit fractions (`0.95` as `95/100`, and so on).
Every generator starts with the shared compatibility guard and returns
`(0, null)` with the feature list untouched when it refuses. -/

/-- `CraterGenerator.canApplyWith` list. -/
def craterCompatible : List Feature := [.plain, .valley, .sandDune]

/-- `CraterGenerator.canApplyWithout` list. -/
def craterProhibited : List Feature := [.volcano, .lavaFlow, .wetland, .coralReef, .river]

/-- `CraterGenerator.applyFeature` (src/FeatureGenerators/CraterGenerator.js). -/
def craterApply (env : TGEnv) (cfg : TGConfig) (θ φ currentHeight initialTemperature : ℚ)
    (existing : List Feature) (biome : BiomeTag) : ApplyResult :=
  if guardRefuses craterCompatible craterProhibited existing then ⟨0, none, existing⟩ else
  let modifier := env.featureModifier biome .crater
  let craterNoise := env.noise (θ * 15) (φ * 15 + 3000)
  let threshold := (95/100) / modifier
  if craterNoise > threshold then
    ⟨-cfg.baseAmplitude * 2 * (craterNoise - threshold) * 20, some .crater, existing⟩
  else ⟨0, none, existing⟩

/-- `VolcanoGenerator.canApplyWith` list. -/
def volcanoCompatible : List Feature := [.tectonicPlate, .lavaFlow, .fumarole, .foothill]

/-- `VolcanoGenerator.canApplyWithout` list. -/
def volcanoProhibited : List Feature := [.glacial, .permafrost, .wetland, .coralReef]

/-- `VolcanoGenerator.applyFeature` (src/terrain/FeatureGenerators/VolcanoGenerator.js). -/
def volcanoApply (env : TGEnv) (cfg : TGConfig) (θ φ currentHeight initialTemperature : ℚ)
    (existing : List Feature) (biome : BiomeTag) : ApplyResult :=
  if guardRefuses volcanoCompatible volcanoProhibited existing then ⟨0, none, existing⟩ else
  let modifier := env.featureModifier biome .volcano
  let volcanoNoise := env.noise (θ * 10) (φ * 10 + 1000)
  let threshold := (9/10) / modifier
  if volcanoNoise > threshold ∧ initialTemperature > 30 then
    ⟨cfg.baseAmplitude * (volcanoNoise - threshold) * 10 *
      (if biome = .highland then 15/10 else 1), some .volcano, existing⟩
  else ⟨0, none, existing⟩

/-- `TectonicPlateGenerator.canApplyWith` list. -/
def tectonicCompatible : List Feature := [.volcano, .valley, .river, .rift, .fumarole, .foothill]

/-- `TectonicPlateGenerator.canApplyWithout` list. -/
def tectonicProhibited : List Feature := [.crater, .desertPavement, .sandDune]

/-- `TectonicPlateGenerator.applyFeature` (src/terrain/FeatureGenerators/TectonicPlateGenerator.js). -/
def tectonicApply (env : TGEnv) (cfg : TGConfig) (θ φ currentHeight initialTemperature : ℚ)
    (existing : List Feature) (biome : BiomeTag) : ApplyResult :=
  if guardRefuses tectonicCompatible tectonicProhibited existing then ⟨0, none, existing⟩ else
  let modifier := env.featureModifier biome .tectonicPlate
  let plateNoise := env.noise (θ * 5) (φ * 5 + 2000)
  let threshold := (1/10) / modifier
  if |plateNoise| < threshold then
    ⟨cfg.baseAmplitude * plateNoise * 2 * (if biome = .rift then 13/10 else 1),
      some .tectonicPlate, existing⟩
  else ⟨0, none, existing⟩

/-- `VastPlainsGenerator.canApplyWith` list. -/
def plainsCompatible : List Feature := [.crater, .sandDune, .wetland, .oasis]

/-- `VastPlainsGenerator.canApplyWithout` list. -/
def plainsProhibited : List Feature := [.volcano, .tectonicPlate, .foothill, .valley]

/-- `VastPlainsGenerator.applyFeature` (src/terrain/FeatureGenerators/VastPlainsGenerator.js).
The dead local `plainSize` of the source is kept as the unused `_plainSize`. -/
def plainsApply (env : TGEnv) (cfg : TGConfig) (θ φ currentHeight initialTemperature : ℚ)
    (existing : List Feature) (biome : BiomeTag) : ApplyResult :=
  if guardRefuses plainsCompatible plainsProhibited existing then ⟨0, none, existing⟩ else
  let modifier := env.featureModifier biome .plain
  let plainLocationNoise := env.noise (θ * (5/10)) (φ * (5/10) + 7000)
  let minThreshold := (2/10) / modifier
  let maxThreshold := (6/10) / modifier
  if plainLocationNoise > minThreshold ∧ plainLocationNoise < maxThreshold then
    let _plainSize := 50 + ⌊plainLocationNoise * 300⌋
    let rumblyness := (env.noise (θ * (3/10)) (φ * (3/10) + 8000)) ^ 2 * (8/100)
    let plainNoise := env.noise (θ * rumblyness * 50) (φ * rumblyness * 50 + 9000)
    let plainBaseHeight := -(2/100) + plainLocationNoise * (8/100)
    let plainHeight := plainBaseHeight + plainNoise * rumblyness
    let distanceToPlainCenter := |plainLocationNoise - 4/10| / (2/10)
    let blendFactor := max 0 (1 - distanceToPlainCenter)
    ⟨(plainHeight - currentHeight) * blendFactor, some .plain, existing⟩
  else ⟨0, none, existing⟩

/-- `MagneticAnomalyGenerator.canApplyWith` list. -/
def magneticCompatible : List Feature := [.tectonicPlate, .volcano, .lavaFlow]

/-- `MagneticAnomalyGenerator.canApplyWithout` list. -/
def magneticProhibited : List Feature := [.wetland, .coralReef, .glacial, .permafrost]

/-- `MagneticAnomalyGenerator.applyFeature` (src/FeatureGenerators/MagneticAnomalyGenerator.js);
this generator takes no biome argument and uses a fixed threshold. -/
def magneticApply (env : TGEnv) (cfg : TGConfig) (θ φ currentHeight initialTemperature : ℚ)
    (existing : List Feature) (_biome : BiomeTag) : ApplyResult :=
  if guardRefuses magneticCompatible magneticProhibited existing then ⟨0, none, existing⟩ else
  let anomalyNoise := env.noise (θ * 8) (φ * 8 + 4000)
  if anomalyNoise > 9/10 then
    ⟨cfg.baseAmplitude * (anomalyNoise - 9/10) * 5, some .magneticAnomaly, existing⟩
  else ⟨0, none, existing⟩

/-- `LavaFlowGenerator.canApplyWith` list. -/
def lavaCompatible : List Feature := [.volcano, .tectonicPlate, .fumarole]

/-- `LavaFlowGenerator.canApplyWithout` list. -/
def lavaProhibited : List Feature := [.glacial, .permafrost, .wetland, .coralReef]

/-- `LavaFlowGenerator.applyFeature` (src/unnamed/part_008). -/
def lavaApply (env : TGEnv) (cfg : TGConfig) (θ φ currentHeight initialTemperature : ℚ)
    (existing : List Feature) (biome : BiomeTag) : ApplyResult :=
  if guardRefuses lavaCompatible lavaProhibited existing then ⟨0, none, existing⟩ else
  let modifier := env.featureModifier biome .lavaFlow
  let lavaNoise := env.noise (θ * 7) (φ * 7 + 13000)
  let threshold := (85/100) / modifier
  if currentHeight > 0 ∧ lavaNoise > threshold ∧ initialTemperature > 25 then
    ⟨cfg.baseAmplitude * (3/10) * (lavaNoise - threshold), some .lavaFlow, existing⟩
  else ⟨0, none, existing⟩

/-- `DesertPavementGenerator.canApplyWith` list. -/
def pavementCompatible : List Feature := [.sandDune, .oasis]

/-- `DesertPavementGenerator.canApplyWithout` list. -/
def pavementProhibited : List Feature := [.wetland, .river, .coralReef, .volcano, .lavaFlow]

/-- `DesertPavementGenerator.applyFeature` (src/terrain/ellipseUtils.js). -/
def pavementApply (env : TGEnv) (cfg : TGConfig) (θ φ currentHeight initialTemperature : ℚ)
    (existing : List Feature) (biome : BiomeTag) : ApplyResult :=
  if guardRefuses pavementCompatible pavementProhibited existing then ⟨0, none, existing⟩ else
  let modifier := env.featureModifier biome .desertPavement
  let pavementNoise := env.noise (θ * 4) (φ * 4 + 16000)
  let threshold := (9/10) / modifier
  if currentHeight > -cfg.baseAmplitude * (3/10) ∧ currentHeight < cfg.baseAmplitude * (3/10) ∧
      pavementNoise > threshold ∧ initialTemperature > 25 then
    ⟨cfg.baseAmplitude * (5/100), some .desertPavement, existing⟩
  else ⟨0, none, existing⟩

/-- `SandDuneGenerator.canApplyWith` list. -/
def duneCompatible : List Feature := [.desertPavement, .oasis, .plain]

/-- `SandDuneGenerator.canApplyWithout` list. -/
def duneProhibited : List Feature := [.wetland, .river, .coralReef, .volcano, .foothill]

/-- `SandDuneGenerator.applyFeature` (src/terrain/FeatureGenerators/SandDuneGenerator.js);
`Math.sin` is the opaque `env.jsSin` and `Math.PI` the double value `jsPi`. -/
def duneApply (env : TGEnv) (cfg : TGConfig) (θ φ currentHeight initialTemperature : ℚ)
    (existing : List Feature) (biome : BiomeTag) : ApplyResult :=
  if guardRefuses duneCompatible duneProhibited existing then ⟨0, none, existing⟩ else
  let modifier := env.featureModifier biome .sandDune
  let duneNoise := env.noise (θ * 4) (φ * 4 + 9000)
  let threshold := (6/10) / modifier
  if currentHeight > -cfg.baseAmplitude * (2/10) ∧ currentHeight < cfg.baseAmplitude * (2/10) ∧
      duneNoise > threshold ∧ initialTemperature > 20 then
    ⟨cfg.baseAmplitude * (4/10) * env.jsSin (duneNoise * jsPi) *
      (if biome = .equatorial then 12/10 else 1), some .sandDune, existing⟩
  else ⟨0, none, existing⟩

/-- `GlacialFeatureGenerator.canApplyWith` list. -/
def glacialCompatible : List Feature := [.permafrost, .valley]

/-- `GlacialFeatureGenerator.canApplyWithout` list. -/
def glacialProhibited : List Feature :=
  [.volcano, .lavaFlow, .fumarole, .desertPavement, .oasis, .wetland]

/-- `GlacialFeatureGenerator.applyFeature` (src/FeatureGenerators, with
`computeLatitude` as the opaque `env.latitude`). -/
def glacialApply (env : TGEnv) (cfg : TGConfig) (θ φ currentHeight initialTemperature : ℚ)
    (existing : List Feature) (biome : BiomeTag) : ApplyResult :=
  if guardRefuses glacialCompatible glacialProhibited existing then ⟨0, none, existing⟩ else
  let modifier := env.featureModifier biome .glacial
  let glacialNoise := env.noise (θ * 6) (φ * 6 + 10000)
  let threshold := (7/10) / modifier
  let latitude := env.latitude θ φ
  if |latitude| > 70 ∧ glacialNoise > threshold ∧ initialTemperature < -10 then
    ⟨-cfg.baseAmplitude * (6/10) * (glacialNoise - threshold) *
      (if biome = .polar then 12/10 else 1), some .glacial, existing⟩
  else ⟨0, none, existing⟩

/-- `KarstTopographyGenerator.canApplyWith` list. -/
def karstCompatible : List Feature := [.valley, .river]

/-- `KarstTopographyGenerator.canApplyWithout` list. -/
def karstProhibited : List Feature := [.desertPavement, .sandDune, .volcano, .lavaFlow]

/-- `KarstTopographyGenerator.applyFeature` (src/FeatureGenerators). -/
def karstApply (env : TGEnv) (cfg : TGConfig) (θ φ currentHeight initialTemperature : ℚ)
    (existing : List Feature) (biome : BiomeTag) : ApplyResult :=
  if guardRefuses karstCompatible karstProhibited existing then ⟨0, none, existing⟩ else
  let modifier := env.featureModifier biome .karst
  let karstNoise := env.noise (θ * 5) (φ * 5 + 12000)
  let threshold := (9/10) / modifier
  if currentHeight > cfg.baseAmplitude * (5/10) ∧ karstNoise > threshold then
    ⟨-cfg.baseAmplitude * (karstNoise - threshold) * 5, some .karst, existing⟩
  else ⟨0, none, existing⟩

/-- `WetlandGenerator.canApplyWith` list. -/
def wetlandCompatible : List Feature := [.river, .plain, .valley]

/-- `WetlandGenerator.canApplyWithout` list. -/
def wetlandProhibited : List Feature :=
  [.desertPavement, .sandDune, .oasis, .glacial, .permafrost]

/-- `WetlandGenerator.applyFeature` (src/terrain/FeatureGenerators/WetlandGenerator.js). -/
def wetlandApply (env : TGEnv) (cfg : TGConfig) (θ φ currentHeight initialTemperature : ℚ)
    (existing : List Feature) (biome : BiomeTag) : ApplyResult :=
  if guardRefuses wetlandCompatible wetlandProhibited existing then ⟨0, none, existing⟩ else
  let modifier := env.featureModifier biome .wetland
  let wetlandNoise := env.noise (θ * 3) (φ * 3 + 14000)
  let threshold := (7/10) / modifier
  if currentHeight > -cfg.baseAmplitude * (1/10) ∧ currentHeight < cfg.baseAmplitude * (1/10) ∧
      wetlandNoise > threshold ∧ initialTemperature > 10 then
    ⟨-cfg.baseAmplitude * (5/100), some .wetland, existing⟩
  else ⟨0, none, existing⟩

/-- `PermafrostGenerator.canApplyWith` list. -/
def permafrostCompatible : List Feature := [.glacial, .valley]

/-- `PermafrostGenerator.canApplyWithout` list. -/
def permafrostProhibited : List Feature := [.volcano, .lavaFlow, .fumarole, .wetland, .oasis]

/-- `PermafrostGenerator.applyFeature` (src/FeatureGenerators/PermafrostGenerator.js). -/
def permafrostApply (env : TGEnv) (cfg : TGConfig) (θ φ currentHeight initialTemperature : ℚ)
    (existing : List Feature) (biome : BiomeTag) : ApplyResult :=
  if guardRefuses permafrostCompatible permafrostProhibited existing then ⟨0, none, existing⟩ else
  let modifier := env.featureModifier biome .permafrost
  let permafrostNoise := env.noise (θ * 6) (φ * 6 + 15000)
  let threshold := (8/10) / modifier
  let latitude := env.latitude θ φ
  if |latitude| > 60 ∧ permafrostNoise > threshold ∧ initialTemperature < -5 then
    ⟨cfg.baseAmplitude * (2/10) * (permafrostNoise - threshold) *
      (if biome = .polar then 11/10 else 1), some .permafrost, existing⟩
  else ⟨0, none, existing⟩

/-- `OasisGenerator.canApplyWith` list. -/
def oasisCompatible : List Feature := [.sandDune, .desertPavement]

/-- `OasisGenerator.canApplyWithout` list. -/
def oasisProhibited : List Feature := [.glacial, .permafrost, .volcano, .foothill, .wetland]

/-- `OasisGenerator.applyFeature` (src/unnamed/part_009). -/
def oasisApply (env : TGEnv) (cfg : TGConfig) (θ φ currentHeight initialTemperature : ℚ)
    (existing : List Feature) (biome : BiomeTag) : ApplyResult :=
  if guardRefuses oasisCompatible oasisProhibited existing then ⟨0, none, existing⟩ else
  let modifier := env.featureModifier biome .oasis
  let oasisNoise := env.noise (θ * 5) (φ * 5 + 17000)
  let threshold := (95/100) / modifier
  if currentHeight > -cfg.baseAmplitude * (2/10) ∧ currentHeight < cfg.baseAmplitude * (2/10) ∧
      oasisNoise > threshold ∧ initialTemperature > 20 then
    ⟨-cfg.baseAmplitude * (3/10) * (oasisNoise - threshold), some .oasis, existing⟩
  else ⟨0, none, existing⟩

/-- `FoothillGenerator.canApplyWith` list. -/
def foothillCompatible : List Feature := [.tectonicPlate, .volcano, .valley]

/-- `FoothillGenerator.canApplyWithout` list. -/
def foothillProhibited : List Feature := [.plain, .wetland, .sandDune, .desertPavement]

/-- `FoothillGenerator.applyFeature` (src/FeatureGenerators/FoothillGenerator.js). -/
def foothillApply (env : TGEnv) (cfg : TGConfig) (θ φ currentHeight initialTemperature : ℚ)
    (existing : List Feature) (biome : BiomeTag) : ApplyResult :=
  if guardRefuses foothillCompatible foothillProhibited existing then ⟨0, none, existing⟩ else
  let modifier := env.featureModifier biome .foothill
  if currentHeight > cfg.baseAmplitude * (12/10) ∧ currentHeight < cfg.baseAmplitude * (15/10) then
    let foothillNoise := env.noise (θ * 7) (φ * 7 + 8000)
    let threshold := (7/10) / modifier
    if foothillNoise > threshold then
      ⟨cfg.baseAmplitude * (3/10) * foothillNoise *
        (if biome = .highland then 13/10 else 1), some .foothill, existing⟩
    else ⟨0, none, existing⟩
  else ⟨0, none, existing⟩

/-- `ValleyAndRiverGenerator.canApplyWith` list. -/
def valleyCompatible : List Feature :=
  [.river, .tributary, .mouth, .tectonicPlate, .glacial, .karst]

/-- `ValleyAndRiverGenerator.canApplyWithout` list. -/
def valleyProhibited : List Feature := [.plain, .sandDune, .desertPavement]

/-- `ValleyAndRiverGenerator.applyFeature`
(src/terrain/FeatureGenerators/VolcanoGenerator.js, second class).  This is the
one generator that mutates the shared `existingFeatures` array, pushing the
secondary labels `river` and `tributary`/`mouth` (each guarded by an
`includes` check) before returning its own `valley` label. -/
def valleyApply (env : TGEnv) (cfg : TGConfig) (θ φ currentHeight initialTemperature : ℚ)
    (existing : List Feature) (biome : BiomeTag) : ApplyResult :=
  if guardRefuses valleyCompatible valleyProhibited existing then ⟨0, none, existing⟩ else
  let valleyModifier := env.featureModifier biome .valley
  let riverModifier := env.featureModifier biome .river
  let valleyNoise := env.noise (θ * 3) (φ * 3 + 5000)
  let valleyThreshold := (2/10) / valleyModifier
  if currentHeight > cfg.baseAmplitude * (15/10) ∧ |valleyNoise| < valleyThreshold then
    let riverThreshold := (1/10) / riverModifier
    let existing1 :=
      if valleyNoise > 0 ∧ valleyNoise < riverThreshold then
        let e1 := if Feature.river ∈ existing then existing else existing ++ [.river]
        if env.noise (θ * 10) (φ * 10 + 6000) > 8/10 then
          if Feature.tributary ∈ e1 then e1 else e1 ++ [.tributary]
        else e1
      else existing
    ⟨-cfg.baseAmplitude * (5/10), some .valley, existing1⟩
  else if currentHeight < -cfg.baseAmplitude * (5/10) ∧ |valleyNoise| < valleyThreshold * (75/100) then
    let riverThreshold := (1/10) / riverModifier
    let existing1 :=
      if valleyNoise < 0 ∧ valleyNoise > -riverThreshold then
        let e1 := if Feature.river ∈ existing then existing else existing ++ [.river]
        if env.noise (θ * 10) (φ * 10 + 6000) > 8/10 then
          if Feature.mouth ∈ e1 then e1 else e1 ++ [.mouth]
        else e1
      else existing
    ⟨-cfg.baseAmplitude * (3/10), some .valley, existing1⟩
  else ⟨0, none, existing⟩

/-- `CoralReefGenerator.canApplyWith` list. -/
def coralCompatible : List Feature := [.underwater]

/-- `CoralReefGenerator.canApplyWithout` list. -/
def coralProhibited : List Feature := [.glacial, .permafrost, .volcano, .lavaFlow, .fumarole]

/-- `CoralReefGenerator.applyFeature` (src/terrain/FeatureGenerators/CoralReefGenerator.js). -/
def coralApply (env : TGEnv) (cfg : TGConfig) (θ φ currentHeight initialTemperature : ℚ)
    (existing : List Feature) (biome : BiomeTag) : ApplyResult :=
  if guardRefuses coralCompatible coralProhibited existing then ⟨0, none, existing⟩ else
  let modifier := env.featureModifier biome .coralReef
  let coralNoise := env.noise (θ * 8) (φ * 8 + 11000)
  let threshold := (8/10) / modifier
  if currentHeight < cfg.waterLevel ∧ currentHeight > -cfg.baseAmplitude ∧
      coralNoise > threshold ∧ initialTemperature > 15 then
    ⟨cfg.baseAmplitude * (2/10) * (coralNoise - threshold) *
      (if biome = .equatorial then 12/10 else 1), some .coralReef, existing⟩
  else ⟨0, none, existing⟩

/-- `FumaroleGenerator.canApplyWith` list. -/
def fumaroleCompatible : List Feature := [.volcano, .tectonicPlate, .lavaFlow]

/-- `FumaroleGenerator.canApplyWithout` list. -/
def fumaroleProhibited : List Feature := [.glacial, .permafrost, .wetland, .coralReef]

/-- `FumaroleGenerator.applyFeature` (src/FeatureGenerators/FumaroleGenerator.js). -/
def fumaroleApply (env : TGEnv) (cfg : TGConfig) (θ φ currentHeight initialTemperature : ℚ)
    (existing : List Feature) (biome : BiomeTag) : ApplyResult :=
  if guardRefuses fumaroleCompatible fumaroleProhibited existing then ⟨0, none, existing⟩ else
  let modifier := env.featureModifier biome .fumarole
  let fumaroleNoise := env.noise (θ * 9) (φ * 9 + 18000)
  let threshold := (9/10) / modifier
  if currentHeight > cfg.baseAmplitude ∧ fumaroleNoise > threshold ∧ initialTemperature > 40 then
    ⟨cfg.baseAmplitude * (4/10) * (fumaroleNoise - threshold), some .fumarole, existing⟩
  else ⟨0, none, existing⟩

/-! ### TerrainGenerator (src/terrain/TerrainGenerator.js) -/

/-- The seventeen generator class names (`fg.generator.constructor.name`). -/
inductive GenName where
  | craterG | volcanoG | tectonicG | plainsG | magneticG | lavaG | pavementG
  | duneG | glacialG | karstG | wetlandG | permafrostG | oasisG | foothillG
  | valleyG | coralG | fumaroleG
deriving DecidableEq

/-- The rank of each class name in JS `localeCompare` order
(`CoralReefGenerator < CraterGenerator < DesertPavementGenerator < FoothillGenerator
< FumaroleGenerator < GlacialFeatureGenerator < KarstTopographyGenerator <
LavaFlowGenerator < MagneticAnomalyGenerator < OasisGenerator < PermafrostGenerator
< SandDuneGenerator < TectonicPlateGenerator < ValleyAndRiverGenerator <
VastPlainsGenerator < VolcanoGenerator < WetlandGenerator`). -/
def genNameRank : GenName → ℕ
  | .coralG => 0
  | .craterG => 1
  | .pavementG => 2
  | .foothillG => 3
  | .fumaroleG => 4
  | .glacialG => 5
  | .karstG => 6
  | .lavaG => 7
  | .magneticG => 8
  | .oasisG => 9
  | .permafrostG => 10
  | .duneG => 11
  | .tectonicG => 12
  | .valleyG => 13
  | .plainsG => 14
  | .volcanoG => 15
  | .wetlandG => 16

/-- Dispatch a class name to its `applyFeature` embedding. -/
def applyGen (env : TGEnv) (cfg : TGConfig) : GenName →
    ℚ → ℚ → ℚ → ℚ → List Feature → BiomeTag → ApplyResult
  | .craterG => craterApply env cfg
  | .volcanoG => volcanoApply env cfg
  | .tectonicG => tectonicApply env cfg
  | .plainsG => plainsApply env cfg
  | .magneticG => magneticApply env cfg
  | .lavaG => lavaApply env cfg
  | .pavementG => pavementApply env cfg
  | .duneG => duneApply env cfg
  | .glacialG => glacialApply env cfg
  | .karstG => karstApply env cfg
  | .wetlandG => wetlandApply env cfg
  | .permafrostG => permafrostApply env cfg
  | .oasisG => oasisApply env cfg
  | .foothillG => foothillApply env cfg
  | .valleyG => valleyApply env cfg
  | .coralG => coralApply env cfg
  | .fumaroleG => fumaroleApply env cfg

/-- One entry of `this.featureGenerators`: generator identity, its
`maxDistance` gate, the tier index assigned by the constructor via
`this.LOD.indexOf(fg.maxDistance)` (`-1` when absent, hence `ℤ`), and the
toggle flag. -/
structure FGEntry where
  name : GenName
  maxDistance : ℚ
  lod : ℤ
  enabled : Bool
deriving DecidableEq

/-- The constructor's `featureGenerators` array before LOD assignment: the
seventeen entries in source order, each with `enabled: false` and its
`maxDistance` (600 for the first seven, 200 for the next six, 100 for the
last four); `lod` starts as the JS `null`, modelled as `-1` until assigned. -/
def initialFeatureGenerators : List FGEntry :=
  [⟨.craterG, 600, -1, false⟩, ⟨.volcanoG, 600, -1, false⟩, ⟨.tectonicG, 600, -1, false⟩,
   ⟨.plainsG, 600, -1, false⟩, ⟨.magneticG, 600, -1, false⟩, ⟨.lavaG, 600, -1, false⟩,
   ⟨.pavementG, 600, -1, false⟩, ⟨.duneG, 200, -1, false⟩, ⟨.glacialG, 200, -1, false⟩,
   ⟨.karstG, 200, -1, false⟩, ⟨.wetlandG, 200, -1, false⟩, ⟨.permafrostG, 200, -1, false⟩,
   ⟨.oasisG, 200, -1, false⟩, ⟨.foothillG, 100, -1, false⟩, ⟨.valleyG, 100, -1, false⟩,
   ⟨.coralG, 100, -1, false⟩, ⟨.fumaroleG, 100, -1, false⟩]

/-- `Array.prototype.indexOf`: first index of `x`, else `-1`. -/
def jsIndexOf (l : List ℚ) (x : ℚ) : ℤ :=
  match l.findIdx? (fun y => decide (y = x)) with
  | some i => i
  | none => -1

/-- Insertion into a descending-sorted list (for the `sort((a, b) => b - a)`
of the unique `maxDistance` values). -/
def insertDesc (x : ℚ) : List ℚ → List ℚ
  | [] => [x]
  | y :: rest => if x ≥ y then x :: y :: rest else y :: insertDesc x rest

/-- Sort a list descending (JS `sort((a, b) => b - a)`; insertion sort is
stable, matching the required stable `Array.prototype.sort`). -/
def sortDesc : List ℚ → List ℚ
  | [] => []
  | x :: rest => insertDesc x (sortDesc rest)

/-- `this.LOD = [1200, ...uniqueDistances]` where `uniqueDistances` is the
deduplicated `maxDistance` list sorted descending. -/
def tgLOD : List ℚ :=
  1200 :: sortDesc ((initialFeatureGenerators.map FGEntry.maxDistance).eraseDups)

/-- The constructor's `featureGenerators` after `fg.lod = this.LOD.indexOf(fg.maxDistance)`. -/
def freshFeatureGenerators : List FGEntry :=
  initialFeatureGenerators.map (fun fg => { fg with lod := jsIndexOf tgLOD fg.maxDistance })

/-- Loop body of `getRequiredLod`: first index `i` with `distance <= LOD[i]`,
else `0` ("default to planetary"). -/
def getRequiredLodAux (distance : ℚ) (i : ℕ) : List ℚ → ℕ
  | [] => 0
  | l :: rest => if distance ≤ l then i else getRequiredLodAux distance (i + 1) rest

/-- `TerrainGenerator.getRequiredLod(distance)` (src/terrain/TerrainGenerator.js
lines 207-212). -/
def getRequiredLod (LOD : List ℚ) (distance : ℚ) : ℕ :=
  getRequiredLodAux distance 0 LOD

/-- `TerrainGenerator.getCoarseKey`: the string
`round(theta*10)/10 + "," + round(phi*10)/10`, as the pair of printed numbers. -/
def getCoarseKey (θ φ : ℚ) : ℚ × ℚ :=
  ((jsRound (θ * 10) : ℚ) / 10, (jsRound (φ * 10) : ℚ) / 10)

/-- The shared octave loop of `computeBaseHeight`, `computeDetail` and the
ocean band: `height += noise(theta*f + off, phi*f + off) * a` with `f *= 2`,
`a /= 2` each round. -/
def octaveSum (noise : ℚ → ℚ → ℚ) (θ φ off : ℚ) : ℚ → ℚ → ℕ → ℚ
  | _, _, 0 => 0
  | f, a, n + 1 => noise (θ * f + off) (φ * f + off) * a + octaveSum noise θ φ off (f * 2) (a / 2) n

/-- `TerrainGenerator.computeBaseHeight`: biome-scaled hill octaves plus the
ocean-depression band offset by `+1000`. -/
def computeBaseHeight (env : TGEnv) (cfg : TGConfig) (θ φ : ℚ) : ℚ :=
  let biome := env.getBiome θ φ 0
  let hill := octaveSum env.noise θ φ 0
    (cfg.baseFrequency * env.frequencyScale biome)
    (cfg.baseAmplitude * env.amplitudeScale biome) (env.biomeOctaves biome)
  let ocean := octaveSum env.noise θ φ 1000
    (cfg.oceanFrequency * env.frequencyScale biome)
    (cfg.oceanAmplitude * env.amplitudeScale biome) cfg.oceanOctaves
  hill + ocean

/-- The octave loop of `computeDetail`:
`detail += noise(theta*f*scale, phi*f*scale) * a` with `f *= 2`, `a /= 2`.
The detail scale is `1 / Math.pow(2, distance)`; the power is the opaque
`env.pow2` (the claims need no detail values). -/
def detailOctaveSum (noise : ℚ → ℚ → ℚ) (θ φ scale : ℚ) : ℚ → ℚ → ℕ → ℚ
  | _, _, 0 => 0
  | f, a, n + 1 =>
      noise (θ * f * scale) (φ * f * scale) * a + detailOctaveSum noise θ φ scale (f * 2) (a / 2) n

/-- `TerrainGenerator.computeDetail` proper. -/
def computeDetail (env : TGEnv) (cfg : TGConfig) (θ φ distance : ℚ) : ℚ :=
  let scale := 1 / env.pow2 distance
  let biome := env.getBiome θ φ (computeBaseHeight env cfg θ φ)
  detailOctaveSum env.noise θ φ scale
    (cfg.detailFrequency * env.frequencyScale biome)
    (cfg.detailAmplitude * env.amplitudeScale biome) (env.biomeOctaves biome)

/-- `TerrainGenerator.computeFeatureAge`: `|noise(4θ, 4φ+7000)|` times the
age coefficient of the primary (first) feature, with the `|| default`
fallback of the JS lookup. -/
def computeFeatureAge (env : TGEnv) (cfg : TGConfig) (θ φ : ℚ) (features : List Feature) : ℚ :=
  let baseAge := |env.noise (θ * 4) (φ * 4 + 7000)|
  let scale := match features with
    | [] => cfg.ageDefault
    | f :: _ => if cfg.featureAges f = 0 then cfg.ageDefault else cfg.featureAges f
  baseAge * scale

/-- Stable ascending insertion of an entry by class-name rank
(`sort((a, b) => a.generator.constructor.name.localeCompare(b...))`). -/
def insertByName (fg : FGEntry) : List FGEntry → List FGEntry
  | [] => [fg]
  | g :: rest =>
      if genNameRank fg.name < genNameRank g.name then fg :: g :: rest
      else g :: insertByName fg rest

/-- Stable sort of generator entries by class name. -/
def sortByName : List FGEntry → List FGEntry
  | [] => []
  | fg :: rest => insertByName fg (sortByName rest)

/-- The `for (const { generator } of sortedGenerators)` loop of
`applyFeaturesForLod`.  Each generator receives the accumulating `features`
array (so the valley generator's secondary pushes are visible to later
generators).  When a generator returns a label not yet present, the source
pushes it and then evaluates `this.heights[lod] += heightAdjustment` — but
`this.heights` is undefined on `TerrainGenerator`, so that statement throws a
`TypeError`; the thrown call is modelled as `none`. -/
def applyFeaturesLoop (env : TGEnv) (cfg : TGConfig) (θ φ currentHeight temperature : ℚ) :
    List FGEntry → List Feature → Option (List Feature)
  | [], features => some features
  | fg :: rest, features =>
      let res := applyGen env cfg fg.name θ φ currentHeight temperature features BiomeTag.blank
      match res.featureLabel with
      | some lbl =>
          if lbl ∈ res.existing then
            applyFeaturesLoop env cfg θ φ currentHeight temperature rest res.existing
          else none
      | none => applyFeaturesLoop env cfg θ φ currentHeight temperature rest res.existing

/-- `TerrainGenerator.applyFeaturesForLod` (src/terrain/TerrainGenerator.js
lines 224-242): copy the tier's feature list, filter the generators on
`fg.enabled && lod === fg.lod && maxDistance <= fg.maxDistance`, sort them by
class name, and run the loop.  The generators are handed `this.biome`, a field
that does not exist on `TerrainGenerator` (the biome lives on the cache
entry); the resulting `undefined` argument is modelled as `BiomeTag.blank`. -/
def applyFeaturesForLod (env : TGEnv) (cfg : TGConfig) (gens : List FGEntry) (LOD : List ℚ)
    (θ φ : ℚ) (lod : ℕ) (currentHeight temperature : ℚ)
    (existingFeatures : List Feature) : Option (List Feature) :=
  let features := existingFeatures
  let maxDistance := LOD.getD lod 0
  let sorted := sortByName (gens.filter
    (fun fg => fg.enabled && decide ((lod : ℤ) = fg.lod) && decide (maxDistance ≤ fg.maxDistance)))
  applyFeaturesLoop env cfg θ φ currentHeight temperature sorted features

/-- The record returned by `getHeight`
(`{ height, features, temperature, biome, distance }`). -/
structure HeightRecord where
  height : ℚ
  features : List Feature
  temperature : ℚ
  biome : BiomeTag
  distance : ℚ
deriving DecidableEq

/-- A cache entry of `this.featureMap`: per-tier height contributions and
feature lists, the latest temperature and biome, the highest computed tier
(`-1` before any), and the `height` field stored at the end of each call.
The JS initialiser `Array(n).fill([])` makes all feature slots alias one
array, but every slot that is ever pushed to has first been overwritten with
a fresh array by the tier loop, so independent slots are an equivalent model
(see `getHeight` below). -/
structure NodeData where
  heights : List ℚ
  features : List (List Feature)
  temperature : ℚ
  biome : BiomeTag
  lod : ℤ
  heightOut : ℚ
deriving DecidableEq

/-- A fresh cache entry for a position (`lod: -1`; `heightOut` models the not
yet assigned `height` field and is never read before being written). -/
def freshNodeData (n : ℕ) : NodeData :=
  ⟨List.replicate n 0, List.replicate n [], 0, .blank, -1, 0⟩

/-- `this.featureMap`, an insertion-ordered map keyed by the coarse key. -/
structure TGState where
  featureMap : List ((ℚ × ℚ) × NodeData)
deriving DecidableEq

/-- `Map.prototype.get`. -/
def mapFind? (m : List ((ℚ × ℚ) × NodeData)) (k : ℚ × ℚ) : Option NodeData :=
  match m.find? (fun e => decide (e.1 = k)) with
  | some e => some e.2
  | none => none

/-- `Map.prototype.set`: overwrite in place, else append. -/
def mapSet : List ((ℚ × ℚ) × NodeData) → ℚ × ℚ → NodeData → List ((ℚ × ℚ) × NodeData)
  | [], k, v => [(k, v)]
  | e :: rest, k, v => if e.1 = k then (k, v) :: rest else e :: mapSet rest k v

/-- One iteration of the tier loop of `getHeight` (lines 155-184):
base height and biome at tier 0, temperature before features, the feature
pass, temperature refresh, erosion, and fine detail for tiers above 0.  The
in-place mutations of `nodeData` are flattened into per-field updates
(`heights1`/`biome1` are the fields after the tier-0 branch, `features2` after
the feature pass, `heights2`/`heights3` after erosion and detail). -/
def tierStep (env : TGEnv) (cfg : TGConfig) (gens : List FGEntry) (LOD : List ℚ)
    (θ φ : ℚ) (nd : NodeData) (lod : ℕ) : Option NodeData :=
  let heights1 := if lod = 0 then nd.heights.set 0 (computeBaseHeight env cfg θ φ) else nd.heights
  let biome1 := if lod = 0 then env.getBiome θ φ (computeBaseHeight env cfg θ φ) else nd.biome
  let currentHeight := if lod = 0 then heights1.getD 0 0
    else (nd.heights.take lod).foldl (· + ·) 0
  let temperature := env.getTemperature currentHeight nd.features.flatten biome1 θ φ
  match applyFeaturesForLod env cfg gens LOD θ φ lod currentHeight temperature
      (nd.features.getD lod []) with
  | none => none
  | some newFeatures =>
      let features2 := nd.features.set lod newFeatures
      let currentHeight2 := (heights1.take lod).foldl (· + ·) 0
      let temperature2 := env.getTemperature currentHeight2 features2.flatten biome1 θ φ
      let age := computeFeatureAge env cfg θ φ features2.flatten
      let heights2 := heights1.set lod (heights1.getD lod 0 * (1 - cfg.erosionFactor * age))
      let heights3 := if lod > 0 then
          heights2.set lod (heights2.getD lod 0 + computeDetail env cfg θ φ (LOD.getD lod 0))
        else heights2
      some ⟨heights3, features2, temperature2, biome1, nd.lod, nd.heightOut⟩

/-- The tier loop `for (let lod = nodeData.lod + 1; lod <= requiredLod; lod++)`:
run `tierStep` for each tier index in turn, stopping on a thrown step. -/
def tierLoop (env : TGEnv) (cfg : TGConfig) (gens : List FGEntry) (LOD : List ℚ)
    (θ φ : ℚ) : NodeData → List ℕ → Option NodeData
  | nd, [] => some nd
  | nd, l :: rest =>
      match tierStep env cfg gens LOD θ φ nd l with
      | none => none
      | some nd1 => tierLoop env cfg gens LOD θ φ nd1 rest

/-- `TerrainGenerator.getHeight(theta, phi, distance)` (lines 138-200): fetch
or create the coarse cache entry, compute the missing tiers when the required
tier exceeds the cached one, sum the tier heights, blend toward the water
level and tag `underwater` (if not already present) when below it, store the
entry back, and return the record.  `none` models the `TypeError` thrown when
an enabled generator fires (see `applyFeaturesLoop`). -/
def getHeight (env : TGEnv) (cfg : TGConfig) (gens : List FGEntry) (LOD : List ℚ)
    (s : TGState) (θ φ distance : ℚ) : Option (HeightRecord × TGState) :=
  let coarseKey := getCoarseKey θ φ
  let nodeData := (mapFind? s.featureMap coarseKey).getD (freshNodeData LOD.length)
  let requiredLod := getRequiredLod LOD distance
  let afterTiers : Option NodeData :=
    if (requiredLod : ℤ) > nodeData.lod then
      (tierLoop env cfg gens LOD θ φ nodeData
        (List.range' (nodeData.lod + 1).toNat (requiredLod + 1 - (nodeData.lod + 1).toNat))).map
        (fun nd => { nd with lod := (requiredLod : ℤ) })
    else some nodeData
  match afterTiers with
  | none => none
  | some nd =>
      let height := nd.heights.foldl (· + ·) 0
      let withWater : ℚ × NodeData :=
        if height < cfg.waterLevel then
          let blend := cfg.waterBlend
          let h := (1 - blend) * height + blend * cfg.waterLevel
          let nd := if Feature.underwater ∈ nd.features.flatten then nd
            else { nd with features :=
                    nd.features.set nd.lod.toNat (nd.features.getD nd.lod.toNat [] ++ [Feature.underwater]) }
          (h, nd)
        else (height, nd)
      let nd := { withWater.2 with heightOut := withWater.1 }
      some (⟨withWater.1, nd.features.flatten, nd.temperature, nd.biome, distance⟩,
        ⟨mapSet s.featureMap coarseKey nd⟩)

/-! ### Mesh assembly (src/terrain/EllipsoidMesh.js) -/

/-- `EllipsoidMesh.getVertexKey(theta, phi)` (lines 149-165, identical in
src/unnamed/part_005): at a pole (theta within `1e-6` of `0` or `Math.PI`)
phi is collapsed to `0`; otherwise phi within `1e-6` of `2*Math.PI` is
normalized to `0`; the returned string
`coarseTheta,coarsePhi:thetaKey,phiKey` is embedded as the tuple of its four
printed numbers (coarse = rounded to `0.1`, fine = rounded to `1e-8`). -/
def getVertexKey (θ φ : ℚ) : ℚ × ℚ × ℚ × ℚ :=
  let φ1 := if |θ| < jsEps ∨ |θ - jsPi| < jsEps then 0
    else if |φ - 2 * jsPi| < jsEps then 0 else φ
  let precision : ℚ := 100000000
  ((jsRound (θ * 10) : ℚ) / 10, (jsRound (φ1 * 10) : ℚ) / 10,
    (jsRound (θ * precision) : ℚ) / precision, (jsRound (φ1 * precision) : ℚ) / precision)

/-- The per-vertex data providers that `addVertex` calls once per new key:
`mapToEllipsoid` (position, via the terrain generator and the camera
distance) and `TerrainColorManager.getColor`.  Both depend on the queried
angles and on the leaf's cached `baseHeight` record (through the distance
calculation); they are opaque here, parameterized over the type `β` of that
record.  The analytics tracking side call is out of the modelled core. -/
structure MeshEnv (β : Type) where
  vertexAt : ℚ → ℚ → β → ℚ × ℚ × ℚ
  colorAt : ℚ → ℚ → β → ℚ × ℚ × ℚ

/-- The growing output buffers of one `generateGeometry` pass. -/
structure MeshState where
  vertexMap : List ((ℚ × ℚ × ℚ × ℚ) × ℕ)
  positions : List ℚ
  colors : List ℚ
  indices : List ℕ
deriving DecidableEq

/-- `Map.prototype.get` on the vertex map. -/
def vmapFind? (m : List ((ℚ × ℚ × ℚ × ℚ) × ℕ)) (k : ℚ × ℚ × ℚ × ℚ) : Option ℕ :=
  match m.find? (fun e => decide (e.1 = k)) with
  | some e => some e.2
  | none => none

/-- `EllipsoidMesh.addVertex` (lines 177-196): return the cached index for an
already-seen canonical key; otherwise compute position and color, append them
to the buffers, record `index = positions.length / 3` in the vertex map and
return it. -/
def addVertex (env : MeshEnv β) (s : MeshState) (θ φ : ℚ) (baseH : β) : ℕ × MeshState :=
  let key := getVertexKey θ φ
  match vmapFind? s.vertexMap key with
  | some i => (i, s)
  | none =>
      let v := env.vertexAt θ φ baseH
      let c := env.colorAt θ φ baseH
      let index := s.positions.length / 3
      (index,
        { vertexMap := s.vertexMap ++ [(key, index)],
          positions := s.positions ++ [v.1, v.2.1, v.2.2],
          colors := s.colors ++ [c.1 / 255, c.2.1 / 255, c.2.2 / 255],
          indices := s.indices })

/-- A quadtree leaf as consumed by `generateGeometry`: its angular bounds and
its cached `baseHeight` record. -/
structure MeshLeaf (β : Type) where
  tmin : ℚ
  tmax : ℚ
  pmin : ℚ
  pmax : ℚ
  baseH : β

/-- The per-leaf body of the `generateGeometry` loop (lines 228-235): four
`addVertex` calls in the order bottom-left `(thetaMin, phiMin)`, bottom-right
`(thetaMin, phiMax)`, top-left `(thetaMax, phiMin)`, top-right
`(thetaMax, phiMax)`, then the two triangles
`(bl, br, tr)` and `(bl, tr, tl)`. -/
def processLeaf (env : MeshEnv β) (s : MeshState) (leaf : MeshLeaf β) : MeshState :=
  let r1 := addVertex env s leaf.tmin leaf.pmin leaf.baseH
  let r2 := addVertex env r1.2 leaf.tmin leaf.pmax leaf.baseH
  let r3 := addVertex env r2.2 leaf.tmax leaf.pmin leaf.baseH
  let r4 := addVertex env r3.2 leaf.tmax leaf.pmax leaf.baseH
  { r4.2 with indices := r4.2.indices ++ [r1.1, r2.1, r4.1] ++ [r1.1, r4.1, r3.1] }

/-- The leaf loop of `generateGeometry` (lines 203-246) starting from the
cleared vertex map and empty buffers. -/
def generateGeometryRun (env : MeshEnv β) (leaves : List (MeshLeaf β)) : MeshState :=
  leaves.foldl (processLeaf env) ⟨[], [], [], []⟩

/-- The four corner angle pairs of a leaf, in `addVertex` call order. -/
def leafCorners (leaf : MeshLeaf β) : List (ℚ × ℚ) :=
  [(leaf.tmin, leaf.pmin), (leaf.tmin, leaf.pmax), (leaf.tmax, leaf.pmin), (leaf.tmax, leaf.pmax)]

/-- The canonical keys of all leaf corners of a pass. -/
def allCornerKeys (leaves : List (MeshLeaf β)) : List (ℚ × ℚ × ℚ × ℚ) :=
  (leaves.flatMap leafCorners).map (fun c => getVertexKey c.1 c.2)

/-! ### Concrete instantiations used by the witnesses -/

/-- An all-zero / all-one environment instance for witnesses. -/
def zeroTGEnv : TGEnv :=
  ⟨fun _ _ => 0, fun _ _ => 1, fun _ _ => 0, fun _ => 0, fun _ => 1,
   fun _ _ _ => .temperate, fun _ => 1, fun _ => 1, fun _ => 1, fun _ _ _ _ _ => 0⟩

/-- The constructor's default `featureAges` table (labels missing from the JS
object — `plain`, `underwater`, `rift` — map to `0`, which the `||` fallback
sends to the default, matching the `undefined` lookup). -/
def defaultFeatureAges : Feature → ℚ
  | .crater => 8/10
  | .volcano => 6/10
  | .tectonicPlate => 7/10
  | .magneticAnomaly => 4/10
  | .valley => 5/10
  | .river => 3/10
  | .tributary => 3/10
  | .mouth => 3/10
  | .foothill => 5/10
  | .sandDune => 4/10
  | .glacial => 7/10
  | .coralReef => 3/10
  | .karst => 6/10
  | .lavaFlow => 5/10
  | .wetland => 2/10
  | .permafrost => 8/10
  | .desertPavement => 6/10
  | .oasis => 3/10
  | .fumarole => 4/10
  | .plain => 0
  | .underwater => 0
  | .rift => 0

/-- A simple configuration for witnesses (water level `0`). -/
def cfg0 : TGConfig :=
  ⟨1, 2/100, 2, 1/100, 3, 0, 1/2, 3/10, 1/10, 2/10, 2, defaultFeatureAges, 1/2⟩

/-- As `cfg0` but with water level `1`, so that a zero-noise height lies
below it and the water branch is taken. -/
def cfgWater : TGConfig :=
  ⟨1, 2/100, 2, 1/100, 3, 1, 1/2, 3/10, 1/10, 2/10, 2, defaultFeatureAges, 1/2⟩

/-- A sequence of `getHeight` calls at a fixed position, one per distance in
the list, threading the cache state; `none` if any call throws. -/
def getHeightSeq (env : TGEnv) (cfg : TGConfig) (gens : List FGEntry) (LOD : List ℚ) :
    TGState → ℚ → ℚ → List ℚ → Option (List HeightRecord × TGState)
  | s, _, _, [] => some ([], s)
  | s, θ, φ, d :: ds =>
      match getHeight env cfg gens LOD s θ φ d with
      | none => none
      | some (r, s1) =>
          match getHeightSeq env cfg gens LOD s1 θ φ ds with
          | none => none
          | some (rs, s2) => some (r :: rs, s2)

/-- A feature generator as seen by the compatibility contract: its fixed
allow-list, its fixed prohibited list, and its `applyFeature`. -/
structure FeatureGen where
  compatible : List Feature
  prohibited : List Feature
  apply : ℚ → ℚ → ℚ → ℚ → List Feature → BiomeTag → ApplyResult

/-- All seventeen generators with their lists, for quantifying over them. -/
def allFeatureGenerators (env : TGEnv) (cfg : TGConfig) : List FeatureGen :=
  [⟨craterCompatible, craterProhibited, craterApply env cfg⟩,
   ⟨volcanoCompatible, volcanoProhibited, volcanoApply env cfg⟩,
   ⟨tectonicCompatible, tectonicProhibited, tectonicApply env cfg⟩,
   ⟨plainsCompatible, plainsProhibited, plainsApply env cfg⟩,
   ⟨magneticCompatible, magneticProhibited, magneticApply env cfg⟩,
   ⟨lavaCompatible, lavaProhibited, lavaApply env cfg⟩,
   ⟨pavementCompatible, pavementProhibited, pavementApply env cfg⟩,
   ⟨duneCompatible, duneProhibited, duneApply env cfg⟩,
   ⟨glacialCompatible, glacialProhibited, glacialApply env cfg⟩,
   ⟨karstCompatible, karstProhibited, karstApply env cfg⟩,
   ⟨wetlandCompatible, wetlandProhibited, wetlandApply env cfg⟩,
   ⟨permafrostCompatible, permafrostProhibited, permafrostApply env cfg⟩,
   ⟨oasisCompatible, oasisProhibited, oasisApply env cfg⟩,
   ⟨foothillCompatible, foothillProhibited, foothillApply env cfg⟩,
   ⟨valleyCompatible, valleyProhibited, valleyApply env cfg⟩,
   ⟨coralCompatible, coralProhibited, coralApply env cfg⟩,
   ⟨fumaroleCompatible, fumaroleProhibited, fumaroleApply env cfg⟩]

/-! ## Theorems

The rational arithmetic of Batteries is sealed behind `@[irreducible]`
markers; they are made semireducible locally so that concrete runs of the
embedded code evaluate by `decide`. -/

section MainTheorems

attribute [local semireducible] Rat.add Rat.mul Rat.sub Rat.inv Rat.ofScientific

/-- **C1** (code bug).  `balanceTree` is documented to ensure that no leaf's
level exceeds an adjacent leaf's by more than one, for any camera position and
LOD configuration.  On the concrete subdivision tree `exampleTree` (root
subdivided, then `ne`, then `ne.ne`, then `ne.ne.nw` — leaf levels equal to
depth, exactly the shape `buildTree` emits), the queue-based `balanceTree`
terminates (the final queue is empty, so the fuel is not the cause) with the
level-1 leaf `[0,8] × [0,16]` still adjacent to the level-3 leaf
`[0,2] × [16,20]` that balancing itself created: the balance invariant fails
with a gap of 2. -/
theorem balanceTree_leaves_two_level_gap :
    (balanceTree 100 exampleTree).2 = [] ∧
    (⟨[.nw], ⟨0, 8, 0, 16⟩, 1⟩ : LeafInfo) ∈ findAllLeaves (balanceTree 100 exampleTree).1 [] ∧
    (⟨[.ne, .nw, .nw], ⟨0, 2, 16, 20⟩, 3⟩ : LeafInfo) ∈
      findAllLeaves (balanceTree 100 exampleTree).1 [] ∧
    isAdjacent ⟨0, 8, 0, 16⟩ ⟨0, 2, 16, 20⟩ = true ∧
    hasImbalance (balanceTree 100 exampleTree).1 = true := by
  refine ⟨by decide, by decide, by decide, by decide, by decide⟩

/-- **C4** (code bug).  `getRequiredLod` scans `this.LOD = [1200, 600, 200, 100]`
in order and returns the first index whose entry is at least the distance, so
index 0 (`1200`, the planetary tier) wins for every distance at most 1200 and
the fallback returns 0 beyond it: the required tier is 0 for *every* distance.
The comment "Default to planetary if distance > 1200" and the spec's
"nearest = finest tier" both expect a distance of 50 to map to the finest
configured tier (index 3); the code maps it to tier 0. -/
theorem getRequiredLod_constant_zero : ∀ d : ℚ, getRequiredLod tgLOD d = 0 := by
  have h : tgLOD = [1200, 600, 200, 100] := by decide
  intro d
  rw [getRequiredLod, h]
  by_cases h1 : d ≤ 1200
  · simp [getRequiredLodAux, h1]
  · have h2 : ¬ d ≤ 600 := fun hc => h1 (by linarith)
    have h3 : ¬ d ≤ 200 := fun hc => h1 (by linarith)
    have h4 : ¬ d ≤ 100 := fun hc => h1 (by linarith)
    simp [getRequiredLodAux, h1, h2, h3, h4]

/-- **C5** (counterexample).  With the scenario thresholds `[15, 30, 45, 60]`,
`maxLevel = 4` (the threshold count) and `minLevel = 0`, a distance of 10
falls in band 0, so the claim's `maxLevel - i` clamped to `[0, 4]` is 4 — but
`EllipsoidMesh.getDesiredLevel` returns `maxLevel - i + 1 = 5`, above
`maxLevel`. -/
theorem getDesiredLevelMesh_exceeds_claim :
    getDesiredLevelMesh [15, 30, 45, 60] 4 0 10 = 5 ∧
    specDesiredLevel [15, 30, 45, 60] 4 0 10 = 4 ∧ (5 : ℤ) ≠ 4 := by decide

/-- The manager-variant scan agrees with the spec's clamped band mapping when
started at any band index `i` with `0 ≤ i` and `maxLevel = i +` the number of
remaining thresholds. -/
theorem desiredLevelManagerAux_eq_spec (d : ℚ) :
    ∀ (lods : List ℚ) (i M : ℤ), 0 ≤ i → i + lods.length = M →
      desiredLevelManagerAux M d i lods = specDesiredLevelAux M 0 d i lods := by
  intro lods
  induction lods with
  | nil => intro i M _ _; rfl
  | cons l rest ih =>
      intro i M hi hM
      simp only [List.length_cons] at hM
      simp only [desiredLevelManagerAux, specDesiredLevelAux]
      by_cases hd : d < l
      · simp only [if_pos hd]
        push_cast at hM
        omega
      · simp only [if_neg hd]
        exact ih (i + 1) M (by omega) (by push_cast at hM ⊢; omega)

/-- **C5** (amended).  `QuadTreeManager.getDesiredLevel` does satisfy the
claimed contract: with `maxLevel` equal to the threshold count it returns
`maxLevel - i` for the first threshold greater than the distance — a value
automatically inside `[0, maxLevel]`, so the clamp of the spec wording is
vacuous — and `0` (`= minLevel`) past all thresholds; the `EllipsoidMesh`
variant instead returns `maxLevel - i + 1`, exceeding `maxLevel` in the
nearest band (see the counterexample). -/
theorem getDesiredLevelManager_matches_spec (lods : List ℚ) (d : ℚ) :
    getDesiredLevelManager lods lods.length d = specDesiredLevel lods lods.length 0 d :=
  desiredLevelManagerAux_eq_spec d lods 0 lods.length (le_refl 0) (by simp)

/-- **C6** (counterexample).  The adjacency test has no pole or wraparound
handling: the leaves `[0, pi/4] x [0, pi/2]` and `[0, pi/4] x [pi, 3pi/2]`
both touch the pole `theta = 0` yet are not adjacent, and the leaf
`[pi/4, pi/2] x [3pi/2, 2pi]` ending at `phi = 2pi` is not adjacent to
`[pi/4, pi/2] x [0, pi/2]` starting at `phi = 0`. -/
theorem isAdjacent_ignores_pole_and_wraparound :
    isAdjacent ⟨0, jsPi/4, 0, jsPi/2⟩ ⟨0, jsPi/4, jsPi, 3*jsPi/2⟩ = false ∧
    isAdjacent ⟨jsPi/4, jsPi/2, 3*jsPi/2, 2*jsPi⟩ ⟨jsPi/4, jsPi/2, 0, jsPi/2⟩ = false := by
  decide

/-- **C6** (amended).  `isAdjacent` recognizes adjacency only through a pair
of boundary coordinates equal within the `1e-6` epsilon — shared theta edge or
shared phi edge; touching a common pole or wrapping from `phi ~ 2pi` to
`phi ~ 0` gives no adjacency (counterexample above). -/
theorem isAdjacent_requires_boundary_match (a b : Rect) (h : isAdjacent a b = true) :
    |a.tmin - b.tmax| < jsEps ∨ |a.tmax - b.tmin| < jsEps ∨
    |a.pmin - b.pmax| < jsEps ∨ |a.pmax - b.pmin| < jsEps := by
  simp only [isAdjacent, Bool.or_eq_true, Bool.and_eq_true, decide_eq_true_eq] at h
  tauto

/-- Witness for the amended C6 theorem at two concretely adjacent leaves. -/
theorem isAdjacent_requires_boundary_match_witness :
    |(0:ℚ) - 2| < jsEps ∨ |(1:ℚ) - 1| < jsEps ∨
    |(0:ℚ) - 1| < jsEps ∨ |(1:ℚ) - 0| < jsEps :=
  isAdjacent_requires_boundary_match ⟨0, 1, 0, 1⟩ ⟨1, 2, 0, 1⟩ (by decide)

/-- **C9**.  `getVertexKey` collapses phi at the poles and normalizes
`phi ~ 2pi` to `0`: for theta within `1e-6` of `0` or of `Math.PI` the key is
independent of phi, and for non-pole theta a phi within `1e-6` of `2*Math.PI`
keys identically to `phi = 0`. -/
theorem getVertexKey_pole_and_wraparound (θ φ1 φ2 : ℚ) :
    ((|θ| < jsEps ∨ |θ - jsPi| < jsEps) → getVertexKey θ φ1 = getVertexKey θ φ2) ∧
    (¬(|θ| < jsEps ∨ |θ - jsPi| < jsEps) → |φ1 - 2 * jsPi| < jsEps →
      getVertexKey θ φ1 = getVertexKey θ 0) := by
  constructor
  · intro hpole
    simp only [getVertexKey, if_pos hpole]
  · intro hpole hwrap
    have h0 : ¬ |(0:ℚ) - 2 * jsPi| < jsEps := by decide
    simp only [getVertexKey, if_neg hpole, if_pos hwrap, if_neg h0]

/-- Witness for C9: the north pole key ignores phi, and
`phi = 2*Math.PI - 5e-7` keys like `phi = 0` at `theta = 1`. -/
theorem getVertexKey_pole_and_wraparound_witness :
    getVertexKey 0 1 = getVertexKey 0 2 ∧
    getVertexKey 1 (2 * jsPi - 1/2000000) = getVertexKey 1 0 :=
  ⟨(getVertexKey_pole_and_wraparound 0 1 2).1 (by decide),
   (getVertexKey_pole_and_wraparound 1 (2 * jsPi - 1/2000000) 0).2 (by decide) (by decide)⟩

/-- Helper: `canApplyWith` is false when some existing feature is outside the
allow-list. -/
theorem canApplyWith_false (compatible existing : List Feature)
    (h : ∃ f ∈ existing, f ∉ compatible) : canApplyWith compatible existing = false := by
  obtain ⟨f, hf, hnc⟩ := h
  simp only [canApplyWith, List.all_eq_false, decide_eq_true_eq]
  exact ⟨f, hf, hnc⟩

/-- Helper: `canApplyWithout` is false when some existing feature is in the
prohibited list. -/
theorem canApplyWithout_false (prohibited existing : List Feature)
    (h : ∃ f ∈ existing, f ∈ prohibited) : canApplyWithout prohibited existing = false := by
  obtain ⟨f, hf, hp⟩ := h
  simp only [canApplyWithout, Bool.not_eq_false', List.any_eq_true, decide_eq_true_eq]
  exact ⟨f, hf, hp⟩

/-- Helper: the shared guard refuses whenever a prohibited feature is present
or a feature outside the allow-list is present. -/
theorem guardRefuses_true (compatible prohibited existing : List Feature)
    (h : (∃ f ∈ existing, f ∈ prohibited) ∨ (∃ f ∈ existing, f ∉ compatible)) :
    guardRefuses compatible prohibited existing = true := by
  rcases h with h | h
  · simp [guardRefuses, canApplyWithout_false prohibited existing h]
  · simp [guardRefuses, canApplyWith_false compatible existing h]

/-- **C3**.  Every one of the seventeen feature generators refuses — returns
height adjustment `0`, no label, and the `existingFeatures` list unchanged —
whenever the existing features contain a label in its fixed prohibited list
(`canApplyWithout` fails) or a label outside its fixed allow-list
(`canApplyWith` fails), for every input and every environment. -/
theorem featureGenerators_refuse_on_incompatibility (env : TGEnv) (cfg : TGConfig)
    (g : FeatureGen) (hg : g ∈ allFeatureGenerators env cfg)
    (θ φ h T : ℚ) (existing : List Feature) (biome : BiomeTag)
    (hbad : (∃ f ∈ existing, f ∈ g.prohibited) ∨ (∃ f ∈ existing, f ∉ g.compatible)) :
    g.apply θ φ h T existing biome = ⟨0, none, existing⟩ := by
  have hfail := guardRefuses_true g.compatible g.prohibited existing hbad
  simp only [allFeatureGenerators, List.mem_cons, List.not_mem_nil, or_false] at hg
  rcases hg with rfl|rfl|rfl|rfl|rfl|rfl|rfl|rfl|rfl|rfl|rfl|rfl|rfl|rfl|rfl|rfl|rfl <;>
    simp_all [craterApply, volcanoApply, tectonicApply, plainsApply, magneticApply,
      lavaApply, pavementApply, duneApply, glacialApply, karstApply, wetlandApply,
      permafrostApply, oasisApply, foothillApply, valleyApply, coralApply, fumaroleApply]

/-- Witness for C3: the crater generator with an existing `volcano` label
(which is in its prohibited list) is a no-op. -/
theorem featureGenerators_refuse_on_incompatibility_witness :
    craterApply zeroTGEnv cfg0 0 0 0 0 [Feature.volcano] BiomeTag.temperate =
      ⟨0, none, [Feature.volcano]⟩ :=
  featureGenerators_refuse_on_incompatibility zeroTGEnv cfg0
    ⟨craterCompatible, craterProhibited, craterApply zeroTGEnv cfg0⟩
    (List.Mem.head _) 0 0 0 0 [Feature.volcano] BiomeTag.temperate
    (Or.inl ⟨Feature.volcano, List.Mem.head _, by decide⟩)

/-- Helper: the constructor's LOD list is `[1200, 600, 200, 100]`. -/
theorem tgLOD_eq : tgLOD = [1200, 600, 200, 100] := by decide

/-- Helper: on the constructor's LOD list, the required tier is 0 for every
distance (shared with the C4 result). -/
theorem requiredLod_tgLOD_zero (d : ℚ) : getRequiredLod tgLOD d = 0 := by
  rw [getRequiredLod, tgLOD_eq]
  by_cases h1 : d ≤ 1200
  · simp [getRequiredLodAux, h1]
  · have h2 : ¬ d ≤ 600 := fun hc => h1 (by linarith)
    have h3 : ¬ d ≤ 200 := fun hc => h1 (by linarith)
    have h4 : ¬ d ≤ 100 := fun hc => h1 (by linarith)
    simp [getRequiredLodAux, h1, h2, h3, h4]

/-- Helper: every fresh generator entry is disabled. -/
theorem freshFeatureGenerators_disabled :
    ∀ fg ∈ freshFeatureGenerators, fg.enabled = false := by decide

/-- Helper: with the fresh (all-disabled) generator list, `applyFeaturesForLod`
returns the feature list unchanged for every input. -/
theorem applyFeaturesForLod_fresh (env : TGEnv) (cfg : TGConfig) (LOD : List ℚ)
    (θ φ : ℚ) (lod : ℕ) (h T : ℚ) (feats : List Feature) :
    applyFeaturesForLod env cfg freshFeatureGenerators LOD θ φ lod h T feats = some feats := by
  have hnil : freshFeatureGenerators.filter
      (fun fg => fg.enabled && decide ((lod : ℤ) = fg.lod) &&
        decide (LOD.getD lod 0 ≤ fg.maxDistance)) = [] := by
    rw [List.filter_eq_nil_iff]
    intro fg hfg
    simp [freshFeatureGenerators_disabled fg hfg]
  simp [applyFeaturesForLod, hnil, sortByName, applyFeaturesLoop]

/-- Helper: writing back the element a slot already holds is the identity. -/
theorem list_set_getD_self : ∀ (l : List α) (i : ℕ) (d : α), l.set i (l[i]?.getD d) = l := by
  intro l
  induction l with
  | nil => intro i _; rfl
  | cons x t ih =>
      intro i d
      cases i with
      | zero => simp
      | succ j => simpa using ih j d

/-- Helper: a tier step with the fresh generator list leaves the tier feature
lists, the cached tier index, the stored height and the lengths unchanged. -/
theorem tierStep_fresh (env : TGEnv) (cfg : TGConfig) (LOD : List ℚ) (θ φ : ℚ)
    (nd : NodeData) (lod : ℕ) :
    ∃ nd', tierStep env cfg freshFeatureGenerators LOD θ φ nd lod = some nd' ∧
      nd'.features = nd.features ∧ nd'.lod = nd.lod ∧
      nd'.heights.length = nd.heights.length ∧ nd'.heightOut = nd.heightOut := by
  simp only [tierStep, applyFeaturesForLod_fresh]
  refine ⟨_, rfl, ?_⟩
  refine ⟨?_, rfl, ?_, rfl⟩
  · simp [List.getD_eq_getElem?_getD, list_set_getD_self]
  · split <;> simp [List.length_set] <;> split <;> simp [List.length_set]

/-- Helper: the tier loop with the fresh generator list succeeds and leaves
features, tier index, stored height and lengths unchanged. -/
theorem tierLoop_fresh (env : TGEnv) (cfg : TGConfig) (LOD : List ℚ) (θ φ : ℚ) :
    ∀ (lods : List ℕ) (nd : NodeData),
      ∃ nd', tierLoop env cfg freshFeatureGenerators LOD θ φ nd lods = some nd' ∧
        nd'.features = nd.features ∧ nd'.lod = nd.lod ∧
        nd'.heights.length = nd.heights.length ∧ nd'.heightOut = nd.heightOut := by
  intro lods
  induction lods with
  | nil => intro nd; exact ⟨nd, rfl, rfl, rfl, rfl, rfl⟩
  | cons l rest ih =>
      intro nd
      obtain ⟨nd1, h1, hf1, hl1, hh1, ho1⟩ := tierStep_fresh env cfg LOD θ φ nd l
      obtain ⟨nd2, h2, hf2, hl2, hh2, ho2⟩ := ih nd1
      refine ⟨nd2, ?_, by rw [hf2, hf1], by rw [hl2, hl1], by rw [hh2, hh1], by rw [ho2, ho1]⟩
      simpa [tierLoop, h1] using h2

/-- **C10**.  The manager-delegated `TerrainGenerator` constructs all 17
feature generators with `enabled: false`, and `applyFeaturesForLod` filters on
that flag, so with the freshly constructed generator list it returns the
feature list unchanged for every input — hence a single `getHeight` call on a
fresh generator can only ever report the `underwater` tag, never a generator
label. -/
theorem freshTerrainGenerator_appliesNoFeatures :
    freshFeatureGenerators.length = 17 ∧
    (∀ fg ∈ freshFeatureGenerators, fg.enabled = false) ∧
    (∀ (env : TGEnv) (cfg : TGConfig) (LOD : List ℚ) (θ φ : ℚ) (lod : ℕ) (h T : ℚ)
      (feats : List Feature),
      applyFeaturesForLod env cfg freshFeatureGenerators LOD θ φ lod h T feats = some feats) ∧
    (∀ (env : TGEnv) (cfg : TGConfig) (θ φ d : ℚ) (r : HeightRecord) (s' : TGState),
      getHeight env cfg freshFeatureGenerators tgLOD (TGState.mk []) θ φ d = some (r, s') →
      ∀ f ∈ r.features, f = Feature.underwater) := by
  refine ⟨by decide, freshFeatureGenerators_disabled, applyFeaturesForLod_fresh, ?_⟩
  intro env cfg θ φ d r s' hcall f hf
  obtain ⟨nd1, h1, hf1, hl1, hh1, ho1⟩ := tierLoop_fresh env cfg tgLOD θ φ
    (List.range' ((freshNodeData tgLOD.length).lod + 1).toNat
      (0 + 1 - ((freshNodeData tgLOD.length).lod + 1).toNat))
    (freshNodeData tgLOD.length)
  rw [getHeight] at hcall
  simp only [mapFind?, List.find?_nil, Option.getD_none, requiredLod_tgLOD_zero,
    Nat.cast_zero] at hcall
  have hcond : ((0 : ℤ) > (freshNodeData tgLOD.length).lod) := by decide
  rw [if_pos hcond, h1, Option.map_some'] at hcall
  have hfeat : nd1.features = List.replicate 4 [] := by
    rw [hf1]; simp [freshNodeData, tgLOD_eq]
  simp only [Prod.mk.injEq, Option.some_inj] at hcall
  rw [← hcall.1] at hf
  have hlit : (freshNodeData tgLOD.length).features = [[], [], [], []] := by decide
  split at hf <;> simp_all [hlit]

/-- Witness for C10: a concrete fresh `getHeight` call reports no feature
label at all. -/
theorem freshTerrainGenerator_appliesNoFeatures_witness :
    ∀ f ∈ (HeightRecord.mk 0 [] 0 .temperate 5).features, f = Feature.underwater :=
  freshTerrainGenerator_appliesNoFeatures.2.2.2 zeroTGEnv cfg0 0 0 5
    ⟨0, [], 0, .temperate, 5⟩
    ⟨[((0, 0), ⟨[0, 0, 0, 0], [[], [], [], []], 0, .temperate, 0, 0⟩)]⟩
    (by decide)

/-- Helper: looking up the key just written returns the written entry. -/
theorem mapFind_mapSet_self : ∀ (m : List ((ℚ × ℚ) × NodeData)) (k : ℚ × ℚ) (v : NodeData),
    mapFind? (mapSet m k v) k = some v := by
  intro m k v
  induction m with
  | nil => simp [mapSet, mapFind?]
  | cons e rest ih =>
      by_cases he : e.1 = k
      · simp [mapSet, he, mapFind?]
      · simp only [mapSet, if_neg he]
        simpa [mapFind?, List.find?_cons, he] using ih

/-- Helper: writing back the entry a key already holds is the identity. -/
theorem mapSet_self : ∀ (m : List ((ℚ × ℚ) × NodeData)) (k : ℚ × ℚ) (v : NodeData),
    mapFind? m k = some v → mapSet m k v = m := by
  intro m k v
  induction m with
  | nil => intro h; simp [mapFind?] at h
  | cons e rest ih =>
      intro h
      by_cases he : e.1 = k
      · have hv : e.2 = v := by
          simp [mapFind?, List.find?_cons, he] at h
          exact h
        rw [mapSet, if_pos he, ← he, ← hv, Prod.mk.eta]
      · have h' : mapFind? rest k = some v := by
          simpa [mapFind?, List.find?_cons, he] using h
        simp [mapSet, he, ih h']

/-- Helper: an element of a positionally read slot is in the flattened list. -/
theorem not_mem_getD_of_not_mem_flatten (x : α) (l : List (List α)) (i : ℕ)
    (h : x ∉ l.flatten) : x ∉ l[i]?.getD [] := by
  cases hg : l[i]? with
  | none => simp
  | some s =>
      intro hx
      exact h (List.mem_flatten.mpr ⟨s, List.getElem?_mem hg, hx⟩)

/-- Helper: membership in the flattening of a list with one slot replaced. -/
theorem mem_flatten_set (x : α) : ∀ (l : List (List α)) (i : ℕ) (v : List α),
    x ∈ ((l.set i v).flatten) → x ∈ v ∨ x ∈ l.flatten := by
  intro l
  induction l with
  | nil => intro i v h; simp at h
  | cons s t ih =>
      intro i v h
      cases i with
      | zero =>
          simp only [List.set_cons_zero, List.flatten_cons, List.mem_append] at h
          rcases h with h | h
          · exact Or.inl h
          · simp [List.flatten_cons, h]
      | succ j =>
          simp only [List.set_cons_succ, List.flatten_cons, List.mem_append] at h
          rcases h with h | h
          · simp [h]
          · rcases ih j v h with h | h
            · exact Or.inl h
            · simp [h]

/-- Helper: no `applyFeature` introduces the `underwater` label into the
shared feature list (the valley generator appends only `river`, `tributary`
and `mouth`). -/
theorem applyGen_no_underwater (env : TGEnv) (cfg : TGConfig) (n : GenName)
    (θ φ h T : ℚ) (feats : List Feature) (b : BiomeTag)
    (huw : Feature.underwater ∉ feats) :
    Feature.underwater ∉ (applyGen env cfg n θ φ h T feats b).existing := by
  cases n <;>
    simp only [applyGen, craterApply, volcanoApply, tectonicApply, plainsApply, magneticApply,
      lavaApply, pavementApply, duneApply, glacialApply, karstApply, wetlandApply,
      permafrostApply, oasisApply, foothillApply, valleyApply, coralApply, fumaroleApply] <;>
    (repeat' split) <;> simp_all

/-- Helper: the generator loop of `applyFeaturesForLod` never introduces the
`underwater` label. -/
theorem applyFeaturesLoop_no_underwater (env : TGEnv) (cfg : TGConfig) (θ φ h T : ℚ) :
    ∀ (lst : List FGEntry) (feats out : List Feature),
      applyFeaturesLoop env cfg θ φ h T lst feats = some out →
      Feature.underwater ∉ feats → Feature.underwater ∉ out := by
  intro lst
  induction lst with
  | nil =>
      intro feats out h1 h2
      simp only [applyFeaturesLoop, Option.some_inj] at h1
      exact h1 ▸ h2
  | cons fg rest ih =>
      intro feats out h1 h2
      have hex := applyGen_no_underwater env cfg fg.name θ φ h T feats BiomeTag.blank h2
      simp only [applyFeaturesLoop] at h1
      split at h1
      · split at h1
        · exact ih _ out h1 hex
        · exact absurd h1 (by simp)
      · exact ih _ out h1 hex

/-- Helper: `applyFeaturesForLod` never introduces the `underwater` label. -/
theorem applyFeaturesForLod_no_underwater (env : TGEnv) (cfg : TGConfig) (gens : List FGEntry)
    (LOD : List ℚ) (θ φ : ℚ) (lod : ℕ) (h T : ℚ) (feats out : List Feature)
    (h1 : applyFeaturesForLod env cfg gens LOD θ φ lod h T feats = some out)
    (h2 : Feature.underwater ∉ feats) : Feature.underwater ∉ out :=
  applyFeaturesLoop_no_underwater env cfg θ φ h T _ feats out h1 h2

/-- Helper: a successful tier step preserves the cached tier index, both
lengths, and the absence of the `underwater` label. -/
theorem tierStep_preserves (env : TGEnv) (cfg : TGConfig) (gens : List FGEntry) (LOD : List ℚ)
    (θ φ : ℚ) (nd nd' : NodeData) (lod : ℕ)
    (h1 : tierStep env cfg gens LOD θ φ nd lod = some nd')
    (huw : Feature.underwater ∉ nd.features.flatten) :
    Feature.underwater ∉ nd'.features.flatten ∧ nd'.lod = nd.lod ∧
      nd'.features.length = nd.features.length ∧ nd'.heights.length = nd.heights.length := by
  simp only [tierStep] at h1
  split at h1
  · exact absurd h1 (by simp)
  next nf heq =>
    have hnf : Feature.underwater ∉ nf := by
      refine applyFeaturesForLod_no_underwater env cfg gens LOD θ φ lod _ _ _ nf heq ?_
      rw [List.getD_eq_getElem?_getD]
      exact not_mem_getD_of_not_mem_flatten _ _ _ huw
    simp only [Option.some_inj] at h1
    subst h1
    refine ⟨?_, rfl, by simp [List.length_set], ?_⟩
    · intro hmem
      simp only at hmem
      rcases mem_flatten_set _ _ _ _ hmem with hin | hin
      · exact hnf hin
      · exact huw hin
    · simp only
      split <;> simp [List.length_set] <;> split <;> simp [List.length_set]

/-- Helper: a successful tier loop preserves the cached tier index, both
lengths, and the absence of the `underwater` label. -/
theorem tierLoop_preserves (env : TGEnv) (cfg : TGConfig) (gens : List FGEntry) (LOD : List ℚ)
    (θ φ : ℚ) : ∀ (lods : List ℕ) (nd nd' : NodeData),
    tierLoop env cfg gens LOD θ φ nd lods = some nd' →
    Feature.underwater ∉ nd.features.flatten →
    Feature.underwater ∉ nd'.features.flatten ∧ nd'.lod = nd.lod ∧
      nd'.features.length = nd.features.length ∧ nd'.heights.length = nd.heights.length := by
  intro lods
  induction lods with
  | nil =>
      intro nd nd' h1 h2
      simp only [tierLoop, Option.some_inj] at h1
      subst h1
      exact ⟨h2, rfl, rfl, rfl⟩
  | cons l rest ih =>
      intro nd nd' h1 h2
      rw [tierLoop] at h1
      cases hstep : tierStep env cfg gens LOD θ φ nd l with
      | none => rw [hstep] at h1; simp at h1
      | some nd1 =>
          rw [hstep] at h1
          obtain ⟨p1, p2, p3, p4⟩ := tierStep_preserves env cfg gens LOD θ φ nd nd1 l hstep h2
          obtain ⟨q1, q2, q3, q4⟩ := ih nd1 nd' h1 p1
          exact ⟨q1, q2.trans p2, q3.trans p3, q4.trans p4⟩

/-- Helper: pushing onto a slot makes the pushed element a member of the
flattening. -/
theorem mem_flatten_set_push (x : α) : ∀ (l : List (List α)) (i : ℕ), i < l.length →
    x ∈ ((l.set i (l[i]?.getD [] ++ [x])).flatten) := by
  intro l
  induction l with
  | nil => intro i h; simp at h
  | cons s t ih =>
      intro i h
      cases i with
      | zero => simp
      | succ j =>
          simp only [List.set_cons_succ, List.flatten_cons, List.mem_append,
            List.getElem?_cons_succ]
          exact Or.inr (ih j (by simpa using h))

/-- Helper: pushing one copy onto a slot of a flattening free of the element
yields at most one occurrence. -/
theorem count_flatten_set_push (x : α) [DecidableEq α] :
    ∀ (l : List (List α)) (i : ℕ), x ∉ l.flatten →
      ((l.set i (l[i]?.getD [] ++ [x])).flatten).count x ≤ 1 := by
  intro l
  induction l with
  | nil => intro i h; simp
  | cons s t ih =>
      intro i h
      simp only [List.flatten_cons, List.mem_append, not_or] at h
      cases i with
      | zero =>
          simp only [List.getElem?_cons_zero, Option.getD_some, List.set_cons_zero,
            List.flatten_cons, List.count_append]
          rw [List.count_eq_zero_of_not_mem h.1, List.count_eq_zero_of_not_mem h.2]
          simp
      | succ j =>
          simp only [List.getElem?_cons_succ, List.set_cons_succ, List.flatten_cons,
            List.count_append]
          rw [List.count_eq_zero_of_not_mem h.1]
          simpa using ih j h.2

/-- Helper: a `getHeight` call whose coarse cache entry is already committed
(`lod >= 0`, correctly water-tagged, stored height up to date) returns the
cached record with the requested distance and leaves the state untouched. -/
theorem getHeight_cached_stable (env : TGEnv) (cfg : TGConfig) (gens : List FGEntry)
    (s : TGState) (θ φ d : ℚ) (nd : NodeData)
    (hfind : mapFind? s.featureMap (getCoarseKey θ φ) = some nd)
    (hlod : 0 ≤ nd.lod)
    (huw : nd.heights.foldl (· + ·) 0 < cfg.waterLevel →
      Feature.underwater ∈ nd.features.flatten)
    (hout : nd.heightOut = (if nd.heights.foldl (· + ·) 0 < cfg.waterLevel
        then (1 - cfg.waterBlend) * nd.heights.foldl (· + ·) 0 + cfg.waterBlend * cfg.waterLevel
        else nd.heights.foldl (· + ·) 0)) :
    getHeight env cfg gens tgLOD s θ φ d =
      some (⟨nd.heightOut, nd.features.flatten, nd.temperature, nd.biome, d⟩, s) := by
  obtain ⟨m⟩ := s
  have hnl : ¬ ((0 : ℤ) > nd.lod) := by omega
  simp only [getHeight, hfind, Option.getD_some, requiredLod_tgLOD_zero, Nat.cast_zero,
    hnl, if_false]
  by_cases hw : nd.heights.foldl (· + ·) 0 < cfg.waterLevel
  · rw [if_pos hw] at hout
    simp only [if_pos hw, if_pos (huw hw), ← hout, Option.some_inj, Prod.mk.injEq]
    exact ⟨by trivial, congrArg TGState.mk (mapSet_self m (getCoarseKey θ φ) nd hfind)⟩
  · rw [if_neg hw] at hout
    simp only [if_neg hw, Option.some_inj, Prod.mk.injEq]
    refine ⟨?_, ?_⟩
    · rw [hout]
    · rw [← hout]
      exact congrArg TGState.mk (mapSet_self m (getCoarseKey θ φ) nd hfind)

/-- Helper: a first `getHeight` call from the empty cache commits the entry:
the stored node has tier index `0`, its stored height matches the water
blending of its tier sum, its feature list carries `underwater` exactly when
the tier sum is below the water level — and then at most once — and the
returned record is exactly the stored entry's view. -/
theorem getHeight_first_call (env : TGEnv) (cfg : TGConfig) (gens : List FGEntry)
    (θ φ d : ℚ) (r : HeightRecord) (s' : TGState)
    (hcall : getHeight env cfg gens tgLOD (TGState.mk []) θ φ d = some (r, s')) :
    ∃ nd : NodeData,
      mapFind? s'.featureMap (getCoarseKey θ φ) = some nd ∧
      0 ≤ nd.lod ∧
      (nd.heights.foldl (· + ·) 0 < cfg.waterLevel →
        Feature.underwater ∈ nd.features.flatten) ∧
      nd.heightOut = (if nd.heights.foldl (· + ·) 0 < cfg.waterLevel
          then (1 - cfg.waterBlend) * nd.heights.foldl (· + ·) 0
            + cfg.waterBlend * cfg.waterLevel
          else nd.heights.foldl (· + ·) 0) ∧
      nd.features.flatten.count Feature.underwater ≤ 1 ∧
      r = ⟨nd.heightOut, nd.features.flatten, nd.temperature, nd.biome, d⟩ := by
  rw [getHeight] at hcall
  simp only [mapFind?, List.find?_nil, Option.getD_none, requiredLod_tgLOD_zero,
    Nat.cast_zero] at hcall
  have hcond : ((0 : ℤ) > (freshNodeData tgLOD.length).lod) := by decide
  rw [if_pos hcond] at hcall
  cases htl : tierLoop env cfg gens tgLOD θ φ (freshNodeData tgLOD.length)
      (List.range' ((freshNodeData tgLOD.length).lod + 1).toNat
        (0 + 1 - ((freshNodeData tgLOD.length).lod + 1).toNat)) with
  | none => rw [htl] at hcall; simp at hcall
  | some nd1 =>
      rw [htl, Option.map_some'] at hcall
      obtain ⟨huw1, hlod1, hflen1, hhlen1⟩ := tierLoop_preserves env cfg gens tgLOD θ φ _
        (freshNodeData tgLOD.length) nd1 htl (by decide)
      have hflen : 0 < nd1.features.length := by
        rw [hflen1]; decide
      by_cases hw : nd1.heights.foldl (· + ·) 0 < cfg.waterLevel
      · simp only [if_pos hw, huw1, if_false, Int.toNat_zero, Prod.mk.injEq,
          Option.some_inj] at hcall
        obtain ⟨hr, hs⟩ := hcall
        subst hr hs
        refine ⟨_, mapFind_mapSet_self [] _ _, ?_, ?_, ?_, ?_, rfl⟩
        · simp
        · intro _
          simp only
          rw [List.getD_eq_getElem?_getD]
          exact mem_flatten_set_push Feature.underwater nd1.features 0 hflen
        · simp only [if_pos hw]
        · simp only
          rw [List.getD_eq_getElem?_getD]
          exact count_flatten_set_push Feature.underwater nd1.features 0 huw1
      · simp only [if_neg hw, Prod.mk.injEq, Option.some_inj] at hcall
        obtain ⟨hr, hs⟩ := hcall
        subst hr hs
        refine ⟨_, mapFind_mapSet_self [] _ _, ?_, ?_, ?_, ?_, rfl⟩
        · simp
        · intro hcontra
          exact absurd hcontra hw
        · simp only [if_neg hw]
        · simp only
          rw [List.count_eq_zero_of_not_mem huw1]
          omega

/-- **C2**.  Cache stability: once a first `getHeight` call at `(theta, phi)`
has committed the (single, since the required tier is always 0) tier, every
later call at that position — in particular any identical-or-increasing
distance sequence — returns the height, feature list, temperature and biome
of the first call bit-for-bit and leaves the cache state untouched: no
committed tier is ever recomputed or perturbed. -/
theorem getHeight_committed_tiers_stable (env : TGEnv) (cfg : TGConfig) (gens : List FGEntry)
    (θ φ d1 : ℚ) (ds : List ℚ) (r1 : HeightRecord) (s1 : TGState)
    (hmono : List.Chain' (· ≤ ·) (d1 :: ds))
    (h1 : getHeight env cfg gens tgLOD (TGState.mk []) θ φ d1 = some (r1, s1)) :
    ∃ rs, getHeightSeq env cfg gens tgLOD s1 θ φ ds = some (rs, s1) ∧
      ∀ r ∈ rs, r.height = r1.height ∧ r.features = r1.features ∧
        r.temperature = r1.temperature ∧ r.biome = r1.biome := by
  obtain ⟨nd, hfind, hlod, huw, hout, _hcount, hr⟩ :=
    getHeight_first_call env cfg gens θ φ d1 r1 s1 h1
  clear h1 hmono
  subst hr
  induction ds with
  | nil => exact ⟨[], rfl, by simp⟩
  | cons d2 rest ih =>
      obtain ⟨rs, hseq, hall⟩ := ih
      refine ⟨⟨nd.heightOut, nd.features.flatten, nd.temperature, nd.biome, d2⟩ :: rs, ?_, ?_⟩
      · simp only [getHeightSeq,
          getHeight_cached_stable env cfg gens s1 θ φ d2 nd hfind hlod huw hout, hseq]
      · intro r hrmem
        rcases List.mem_cons.mp hrmem with h | h
        · subst h; exact ⟨rfl, rfl, rfl, rfl⟩
        · exact hall r h

/-- Witness for C2: with the zero-noise environment, the call at distance `5`
from the empty cache commits the entry, and the follow-up calls at distances
`6` and `7` reproduce it exactly without touching the state. -/
theorem getHeight_committed_tiers_stable_witness :
    List.Chain' (· ≤ ·) [(5 : ℚ), 6, 7] ∧
    ∃ rs, getHeightSeq zeroTGEnv cfg0 freshFeatureGenerators tgLOD
        ⟨[((0, 0), ⟨[0, 0, 0, 0], [[], [], [], []], 0, .temperate, 0, 0⟩)]⟩ 0 0 [6, 7] =
        some (rs, ⟨[((0, 0), ⟨[0, 0, 0, 0], [[], [], [], []], 0, .temperate, 0, 0⟩)]⟩) ∧
      ∀ r ∈ rs, r.height = (HeightRecord.mk 0 [] 0 .temperate 5).height ∧
        r.features = (HeightRecord.mk 0 [] 0 .temperate 5).features ∧
        r.temperature = (HeightRecord.mk 0 [] 0 .temperate 5).temperature ∧
        r.biome = (HeightRecord.mk 0 [] 0 .temperate 5).biome :=
  ⟨by norm_num [List.chain'_cons],
    getHeight_committed_tiers_stable zeroTGEnv cfg0 freshFeatureGenerators 0 0 5 [6, 7]
      ⟨0, [], 0, .temperate, 5⟩
      ⟨[((0, 0), ⟨[0, 0, 0, 0], [[], [], [], []], 0, .temperate, 0, 0⟩)]⟩
      (by norm_num [List.chain'_cons]) (by decide)⟩

/-- **C8**.  Water blending: when the committed tier sum lies below the
configured water level, the returned height is
`(1 - waterBlend) * height + waterBlend * waterLevel` and the returned
feature list carries the `underwater` tag; the tag is idempotent — the
returned list holds it at most once, and a repeated call at the position
returns the same feature list (and height, temperature, biome) again. -/
theorem getHeight_water_blend_idempotent (env : TGEnv) (cfg : TGConfig) (gens : List FGEntry)
    (θ φ d d2 : ℚ) (r : HeightRecord) (s' : TGState)
    (hcall : getHeight env cfg gens tgLOD (TGState.mk []) θ φ d = some (r, s')) :
    ∃ nd : NodeData, mapFind? s'.featureMap (getCoarseKey θ φ) = some nd ∧
      (nd.heights.foldl (· + ·) 0 < cfg.waterLevel →
        r.height = (1 - cfg.waterBlend) * nd.heights.foldl (· + ·) 0
          + cfg.waterBlend * cfg.waterLevel ∧
        Feature.underwater ∈ r.features) ∧
      r.features.count Feature.underwater ≤ 1 ∧
      getHeight env cfg gens tgLOD s' θ φ d2 =
        some (⟨r.height, r.features, r.temperature, r.biome, d2⟩, s') := by
  obtain ⟨nd, hfind, hlod, huw, hout, hcount, hr⟩ :=
    getHeight_first_call env cfg gens θ φ d r s' hcall
  subst hr
  refine ⟨nd, hfind, ?_, hcount, ?_⟩
  · intro hw
    refine ⟨?_, huw hw⟩
    show nd.heightOut = _
    rw [hout, if_pos hw]
  · exact getHeight_cached_stable env cfg gens s' θ φ d2 nd hfind hlod huw hout

/-- Witness for C8: with water level `1` over the zero-noise terrain the tier
sum `0` is underwater; the returned height is the blend `1/2`, the tag is
present exactly once, and a repeat call reproduces the record. -/
theorem getHeight_water_blend_idempotent_witness :
    ∃ nd : NodeData,
      mapFind? (TGState.mk [((0, 0),
          ⟨[0, 0, 0, 0], [[Feature.underwater], [], [], []], 0, .temperate, 0, 1/2⟩)]).featureMap
        (getCoarseKey 0 0) = some nd ∧
      (nd.heights.foldl (· + ·) 0 < cfgWater.waterLevel →
        (HeightRecord.mk (1/2) [Feature.underwater] 0 .temperate 5).height =
          (1 - cfgWater.waterBlend) * nd.heights.foldl (· + ·) 0
            + cfgWater.waterBlend * cfgWater.waterLevel ∧
        Feature.underwater ∈ (HeightRecord.mk (1/2) [Feature.underwater] 0 .temperate 5).features) ∧
      (HeightRecord.mk (1/2) [Feature.underwater] 0 .temperate 5).features.count
        Feature.underwater ≤ 1 ∧
      getHeight zeroTGEnv cfgWater freshFeatureGenerators tgLOD
        (TGState.mk [((0, 0),
          ⟨[0, 0, 0, 0], [[Feature.underwater], [], [], []], 0, .temperate, 0, 1/2⟩)]) 0 0 6 =
        some (⟨(HeightRecord.mk (1/2) [Feature.underwater] 0 .temperate 5).height,
          (HeightRecord.mk (1/2) [Feature.underwater] 0 .temperate 5).features,
          (HeightRecord.mk (1/2) [Feature.underwater] 0 .temperate 5).temperature,
          (HeightRecord.mk (1/2) [Feature.underwater] 0 .temperate 5).biome, 6⟩,
          TGState.mk [((0, 0),
            ⟨[0, 0, 0, 0], [[Feature.underwater], [], [], []], 0, .temperate, 0, 1/2⟩)]) :=
  getHeight_water_blend_idempotent zeroTGEnv cfgWater freshFeatureGenerators 0 0 5 6
    ⟨1/2, [Feature.underwater], 0, .temperate, 5⟩
    ⟨[((0, 0), ⟨[0, 0, 0, 0], [[Feature.underwater], [], [], []], 0, .temperate, 0, 1/2⟩)]⟩
    (by decide)

/-- Helper: one `addVertex` call preserves the mesh buffer invariant — three
position entries per vertex-map entry, no duplicate keys, all stored indices
in range — extends the key set by exactly the requested key, returns an
in-range index, never shrinks the map and never touches the index buffer. -/
theorem addVertex_spec (env : MeshEnv β) (s : MeshState) (θ φ : ℚ) (b : β)
    (h1 : s.positions.length = 3 * s.vertexMap.length)
    (h2 : (s.vertexMap.map Prod.fst).Nodup)
    (h3 : ∀ e ∈ s.vertexMap, e.2 < s.vertexMap.length) :
    (addVertex env s θ φ b).2.positions.length =
      3 * (addVertex env s θ φ b).2.vertexMap.length ∧
    ((addVertex env s θ φ b).2.vertexMap.map Prod.fst).Nodup ∧
    ((addVertex env s θ φ b).2.vertexMap.map Prod.fst).toFinset =
      insert (getVertexKey θ φ) (s.vertexMap.map Prod.fst).toFinset ∧
    (∀ e ∈ (addVertex env s θ φ b).2.vertexMap,
      e.2 < (addVertex env s θ φ b).2.vertexMap.length) ∧
    (addVertex env s θ φ b).1 < (addVertex env s θ φ b).2.vertexMap.length ∧
    s.vertexMap.length ≤ (addVertex env s θ φ b).2.vertexMap.length ∧
    (addVertex env s θ φ b).2.indices = s.indices := by
  cases hfind : vmapFind? s.vertexMap (getVertexKey θ φ) with
  | some i =>
      have hmem : ∃ e ∈ s.vertexMap, e.1 = getVertexKey θ φ ∧ e.2 = i := by
        rw [vmapFind?] at hfind
        cases hF : s.vertexMap.find? (fun e => decide (e.1 = getVertexKey θ φ)) with
        | none => rw [hF] at hfind; simp at hfind
        | some e =>
            rw [hF] at hfind
            simp only [Option.some_inj] at hfind
            exact ⟨e, List.mem_of_find?_eq_some hF,
              by simpa using List.find?_some hF, hfind⟩
      obtain ⟨e, hein, hek, hei⟩ := hmem
      have hkey : getVertexKey θ φ ∈ (s.vertexMap.map Prod.fst).toFinset := by
        simp only [List.mem_toFinset, List.mem_map]
        exact ⟨e, hein, hek⟩
      simp only [addVertex, hfind]
      refine ⟨h1, h2, (Finset.insert_eq_self.mpr hkey).symm, h3, ?_, le_refl _, by trivial⟩
      rw [← hei]
      exact h3 e hein
  | none =>
      have hnotin : getVertexKey θ φ ∉ s.vertexMap.map Prod.fst := by
        rw [vmapFind?] at hfind
        cases hF : s.vertexMap.find? (fun e => decide (e.1 = getVertexKey θ φ)) with
        | some e => rw [hF] at hfind; simp at hfind
        | none =>
            rw [List.find?_eq_none] at hF
            intro hmem
            obtain ⟨x, hxin, hxk⟩ := List.mem_map.mp hmem
            exact absurd (decide_eq_true_eq.mpr hxk) (hF x hxin)
      have hdiv : s.positions.length / 3 = s.vertexMap.length := by
        rw [h1]; exact Nat.mul_div_cancel_left _ (by norm_num)
      simp only [addVertex, hfind, hdiv]
      refine ⟨?_, ?_, ?_, ?_, ?_, ?_, by trivial⟩
      · simp only [List.length_append, List.length_cons, List.length_nil, h1]
        ring
      · simp [List.map_append, List.nodup_append, h2, hnotin]
      · ext k
        simp only [List.map_append, List.toFinset_append, Finset.mem_union,
          List.map_cons, List.map_nil, List.toFinset_cons, List.toFinset_nil,
          Finset.mem_insert, List.mem_toFinset, Finset.not_mem_empty, or_false]
        tauto
      · intro e he
        simp only [List.length_append, List.length_cons, List.length_nil]
        rcases List.mem_append.mp he with he | he
        · have := h3 e he; omega
        · simp only [List.mem_cons, List.not_mem_nil, or_false] at he
          rw [he]; omega
      · simp only [List.length_append, List.length_cons, List.length_nil]; omega
      · simp only [List.length_append, List.length_cons, List.length_nil]; omega

set_option maxHeartbeats 1600000 in
/-- Helper: one leaf of the `generateGeometry` loop preserves the buffer
invariant, extends the key set by the leaf's four corner keys, emits exactly
6 triangle indices — all in range — and never shrinks the vertex map. -/
theorem processLeaf_spec (env : MeshEnv β) (s : MeshState) (leaf : MeshLeaf β)
    (h1 : s.positions.length = 3 * s.vertexMap.length)
    (h2 : (s.vertexMap.map Prod.fst).Nodup)
    (h3 : ∀ e ∈ s.vertexMap, e.2 < s.vertexMap.length)
    (h4 : ∀ i ∈ s.indices, i < s.vertexMap.length) :
    (processLeaf env s leaf).positions.length =
      3 * (processLeaf env s leaf).vertexMap.length ∧
    ((processLeaf env s leaf).vertexMap.map Prod.fst).Nodup ∧
    ((processLeaf env s leaf).vertexMap.map Prod.fst).toFinset =
      (s.vertexMap.map Prod.fst).toFinset ∪
        ((leafCorners leaf).map (fun c => getVertexKey c.1 c.2)).toFinset ∧
    (∀ e ∈ (processLeaf env s leaf).vertexMap,
      e.2 < (processLeaf env s leaf).vertexMap.length) ∧
    (∀ i ∈ (processLeaf env s leaf).indices,
      i < (processLeaf env s leaf).vertexMap.length) ∧
    (processLeaf env s leaf).indices.length = s.indices.length + 6 ∧
    s.vertexMap.length ≤ (processLeaf env s leaf).vertexMap.length := by
  obtain ⟨a1, b1, c1, d1, e1, f1, g1⟩ :=
    addVertex_spec env s leaf.tmin leaf.pmin leaf.baseH h1 h2 h3
  obtain ⟨a2, b2, c2, d2, e2, f2, g2⟩ :=
    addVertex_spec env _ leaf.tmin leaf.pmax leaf.baseH a1 b1 d1
  obtain ⟨a3, b3, c3, d3, e3, f3, g3⟩ :=
    addVertex_spec env _ leaf.tmax leaf.pmin leaf.baseH a2 b2 d2
  obtain ⟨a4, b4, c4, d4, e4, f4, g4⟩ :=
    addVertex_spec env _ leaf.tmax leaf.pmax leaf.baseH a3 b3 d3
  have hmono : s.vertexMap.length ≤ _ := f1.trans (f2.trans (f3.trans f4))
  have hi1 := lt_of_lt_of_le e1 (f2.trans (f3.trans f4))
  have hi2 := lt_of_lt_of_le e2 (f3.trans f4)
  have hi3 := lt_of_lt_of_le e3 f4
  simp only [processLeaf]
  refine ⟨a4, b4, ?_, d4, ?_, ?_, hmono⟩
  · rw [c4, c3, c2, c1]
    ext k
    simp only [leafCorners, List.map_cons, List.map_nil, List.toFinset_cons,
      List.toFinset_nil, Finset.mem_insert, Finset.mem_union, Finset.not_mem_empty,
      or_false]
    tauto
  · intro i hi
    simp only [List.mem_append, List.mem_cons, List.not_mem_nil, or_false] at hi
    rw [g4, g3, g2, g1] at hi
    rcases hi with (hi | hi | hi | hi) | hi | hi | hi
    · exact lt_of_lt_of_le (h4 i hi) hmono
    · rw [hi]; exact hi1
    · rw [hi]; exact hi2
    · rw [hi]; exact e4
    · rw [hi]; exact hi1
    · rw [hi]; exact e4
    · rw [hi]; exact hi3
  · simp only [List.length_append, List.length_cons, List.length_nil, g4, g3, g2, g1]

/-- Helper: the leaf loop preserves the buffer invariant, accumulates exactly
the corner keys of the processed leaves, and emits 6 indices per leaf. -/
theorem meshRun_invariant (env : MeshEnv β) : ∀ (leaves : List (MeshLeaf β)) (s : MeshState),
    s.positions.length = 3 * s.vertexMap.length →
    (s.vertexMap.map Prod.fst).Nodup →
    (∀ e ∈ s.vertexMap, e.2 < s.vertexMap.length) →
    (∀ i ∈ s.indices, i < s.vertexMap.length) →
    (leaves.foldl (processLeaf env) s).positions.length =
      3 * (leaves.foldl (processLeaf env) s).vertexMap.length ∧
    ((leaves.foldl (processLeaf env) s).vertexMap.map Prod.fst).Nodup ∧
    ((leaves.foldl (processLeaf env) s).vertexMap.map Prod.fst).toFinset =
      (s.vertexMap.map Prod.fst).toFinset ∪ (allCornerKeys leaves).toFinset ∧
    (∀ e ∈ (leaves.foldl (processLeaf env) s).vertexMap,
      e.2 < (leaves.foldl (processLeaf env) s).vertexMap.length) ∧
    (∀ i ∈ (leaves.foldl (processLeaf env) s).indices,
      i < (leaves.foldl (processLeaf env) s).vertexMap.length) ∧
    (leaves.foldl (processLeaf env) s).indices.length =
      s.indices.length + 6 * leaves.length := by
  intro leaves
  induction leaves with
  | nil =>
      intro s p1 p2 p3 p4
      refine ⟨p1, p2, ?_, p3, p4, by simp⟩
      simp [allCornerKeys]
  | cons leaf rest ih =>
      intro s p1 p2 p3 p4
      obtain ⟨q1, q2, q3, q4, q5, q6, _q7⟩ := processLeaf_spec env s leaf p1 p2 p3 p4
      obtain ⟨r1, r2, r3, r4, r5, r6⟩ := ih (processLeaf env s leaf) q1 q2 q4 q5
      rw [List.foldl_cons]
      refine ⟨r1, r2, ?_, r4, r5, ?_⟩
      · have hsplit : (allCornerKeys (leaf :: rest)).toFinset =
            ((leafCorners leaf).map (fun c => getVertexKey c.1 c.2)).toFinset ∪
              (allCornerKeys rest).toFinset := by
          simp [allCornerKeys, List.flatMap_cons, List.map_append, List.toFinset_append]
        rw [r3, q3, hsplit, Finset.union_assoc]
      · rw [r6, q6]
        simp only [List.length_cons]
        ring

/-- **C7**.  One pass of the `generateGeometry` leaf loop emits exactly 6
triangle indices per leaf, every emitted index addresses a valid vertex
(`index < positions.length / 3`), the number of emitted vertices equals the
number of distinct canonical vertex keys over all leaf corners, and every
corner of every leaf resolves through the vertex map to a valid index. -/
theorem generateGeometry_mesh_counts (env : MeshEnv β) (leaves : List (MeshLeaf β)) :
    (generateGeometryRun env leaves).indices.length = 6 * leaves.length ∧
    (∀ i ∈ (generateGeometryRun env leaves).indices,
      i < (generateGeometryRun env leaves).positions.length / 3) ∧
    (generateGeometryRun env leaves).positions.length / 3 =
      (allCornerKeys leaves).dedup.length ∧
    (∀ leaf ∈ leaves, ∀ c ∈ leafCorners leaf,
      ∃ i, vmapFind? (generateGeometryRun env leaves).vertexMap (getVertexKey c.1 c.2) =
          some i ∧ i < (generateGeometryRun env leaves).positions.length / 3) := by
  obtain ⟨r1, r2, r3, r4, r5, r6⟩ := meshRun_invariant env leaves ⟨[], [], [], []⟩
    (by simp) (by simp) (by simp) (by simp)
  simp only [generateGeometryRun]
  have hdiv : (leaves.foldl (processLeaf env) ⟨[], [], [], []⟩).positions.length / 3 =
      (leaves.foldl (processLeaf env) ⟨[], [], [], []⟩).vertexMap.length := by
    rw [r1]
    exact Nat.mul_div_cancel_left _ (by norm_num)
  refine ⟨?_, ?_, ?_, ?_⟩
  · simpa using r6
  · intro i hi
    rw [hdiv]
    exact r5 i hi
  · rw [hdiv]
    calc (leaves.foldl (processLeaf env) ⟨[], [], [], []⟩).vertexMap.length
        = ((leaves.foldl (processLeaf env) ⟨[], [], [], []⟩).vertexMap.map Prod.fst).length :=
          (List.length_map _ _).symm
      _ = ((leaves.foldl (processLeaf env) ⟨[], [], [], []⟩).vertexMap.map
            Prod.fst).toFinset.card := (List.toFinset_card_of_nodup r2).symm
      _ = (allCornerKeys leaves).toFinset.card := by rw [r3]; simp
      _ = (allCornerKeys leaves).dedup.length := List.card_toFinset _
  · intro leaf hleaf c hc
    have hkey : getVertexKey c.1 c.2 ∈
        (leaves.foldl (processLeaf env) ⟨[], [], [], []⟩).vertexMap.map Prod.fst := by
      rw [← List.mem_toFinset, r3]
      simp only [Finset.mem_union, List.mem_toFinset]
      right
      simp only [allCornerKeys, List.mem_map]
      exact ⟨c, List.mem_flatMap.mpr ⟨leaf, hleaf, hc⟩, rfl⟩
    obtain ⟨e, hein, hek⟩ := List.mem_map.mp hkey
    have hsome : ((leaves.foldl (processLeaf env) ⟨[], [], [], []⟩).vertexMap.find?
        (fun x => decide (x.1 = getVertexKey c.1 c.2))).isSome := by
      rw [List.find?_isSome]
      exact ⟨e, hein, by simp [hek]⟩
    obtain ⟨e', hfind⟩ := Option.isSome_iff_exists.mp hsome
    refine ⟨e'.2, ?_, ?_⟩
    · rw [vmapFind?, hfind]
    · rw [hdiv]
      exact r4 e' (List.mem_of_find?_eq_some hfind)

end MainTheorems
